import Mathlib

/-!
Bingo REST gateway (`stub-cpp/server.cpp`): JSON codec, HTTP framer, route dispatcher.

A shallow embedding of the gateway's pure logic.  A `std::string` is the list of its
bytes (`Str`), every byte a `Char`.  Library functions the source calls
(`std::string::find`, `substr`, `isspace`, `isdigit`, `std::stoi`, `std::stoul`,
`operator<<` on integers, `operator>>` on strings) are modelled after the C++ standard;
an exception thrown by `std::stoi` / `std::stoul` is an `Except.error`, which nothing in
the source catches.
-/

namespace Gateway

/-! ## Strings and library functions -/

/-- A `std::string`, as the list of its bytes. -/
abbrev Str := List Char

/-- The exceptions `std::stoi` and `std::stoul` throw. -/
inductive StdError where
  | invalid_argument
  | out_of_range
  deriving DecidableEq, Repr

/-- Equality of results is decidable, so that concrete runs can be evaluated. -/
instance decEqExcept {ε α : Type} [DecidableEq ε] [DecidableEq α] : DecidableEq (Except ε α)
  | .ok a, .ok b =>
    if h : a = b then isTrue (congrArg Except.ok h)
    else isFalse (fun h1 => h (Except.ok.inj h1))
  | .error a, .error b =>
    if h : a = b then isTrue (congrArg Except.error h)
    else isFalse (fun h1 => h (Except.error.inj h1))
  | .ok _, .error _ => isFalse (fun h1 => Except.noConfusion h1)
  | .error _, .ok _ => isFalse (fun h1 => Except.noConfusion h1)

/-- Search loop of `std::string::find`: `rest` is the text from index `pos` on; the result is
the least index at or after `pos` where `pat` starts, `none` standing for `npos`. -/
def findFrom (pat : Str) : Str → Nat → Option Nat
  | [], pos => if pat = [] then some pos else none
  | c :: rest, pos =>
    if pat.isPrefixOf (c :: rest) then some pos else findFrom pat rest (pos + 1)

/-- The call `s.find(pat, start)`. -/
def find (s pat : Str) (start : Nat) : Option Nat :=
  if s.length < start then none else findFrom pat (s.drop start) start

/-- The call `s.substr(pos, count)`; every call site of the source has `pos ≤ s.size()`, so the
`out_of_range` branch of `substr` is never taken. -/
def substr (s : Str) (pos count : Nat) : Str := (s.drop pos).take count

/-- The C-locale `isspace`: space, `\t`, `\n`, `\v`, `\f`, `\r`. -/
def isspace (c : Char) : Bool := c.toNat = 32 || (9 ≤ c.toNat && c.toNat ≤ 13)

/-- The C-locale `isdigit`. -/
def isdigit (c : Char) : Bool := 48 ≤ c.toNat && c.toNat ≤ 57

/-- The loop `while (pos < s.length() && p(s[pos])) pos++`, where `rest` is the text from index
`pos` on; the result is the final `pos`. -/
def skipLoop (p : Char → Bool) : Str → Nat → Nat
  | [], pos => pos
  | c :: rest, pos => if p c then skipLoop p rest (pos + 1) else pos

/-- Value of a decimal digit byte. -/
def digitValue (c : Char) : Nat := c.toNat - 48

/-- Value of a run of decimal digits, most significant first. -/
def digitsValue (ds : Str) : Nat := ds.foldl (fun acc c => 10 * acc + digitValue c) 0

/-- The optional sign `strtol` / `strtoul` accept: whether it is `-`, and the text after it. -/
def splitSign : Str → Bool × Str
  | '-' :: r => (true, r)
  | '+' :: r => (false, r)
  | s => (false, s)

/-- The call `std::stoi(s)` (base 10, `int` of 32 bits): leading white space is skipped, an
optional sign and the longest run of digits are read; no digit throws `invalid_argument`, a
value outside `int` throws `out_of_range`; trailing text is ignored. -/
def stoi (s : Str) : Except StdError Int :=
  let (neg, t) := splitSign (s.dropWhile isspace)
  let ds := t.takeWhile isdigit
  if ds = [] then .error .invalid_argument
  else
    let v : Int := if neg then -(digitsValue ds : Int) else (digitsValue ds : Int)
    if v < -2147483648 ∨ 2147483647 < v then .error .out_of_range else .ok v

/-- The call `std::stoul(s)` (base 10, `unsigned long` of 64 bits): as `stoi`, but the magnitude
must fit 64 bits and a leading `-` negates it modulo `2^64`. -/
def stoul (s : Str) : Except StdError Nat :=
  let (neg, t) := splitSign (s.dropWhile isspace)
  let ds := t.takeWhile isdigit
  if ds = [] then .error .invalid_argument
  else
    let v := digitsValue ds
    if 18446744073709551615 < v then .error .out_of_range
    else .ok (if neg then (18446744073709551616 - v) % 18446744073709551616 else v)

/-- Digits of `n`, most significant first, pushed in front of `acc`; `fuel` bounds the number of
digits and `n + 1` is always enough. -/
def renderNatAux : Nat → Nat → Str → Str
  | 0, _, acc => acc
  | fuel + 1, n, acc =>
    if n / 10 = 0 then Char.ofNat (48 + n % 10) :: acc
    else renderNatAux fuel (n / 10) (Char.ofNat (48 + n % 10) :: acc)

/-- Decimal rendering of a natural number. -/
def renderNat (n : Nat) : Str := renderNatAux (n + 1) n []

/-- What `oss << v` writes for an integer `v`: its decimal rendering, `-` first when negative. -/
def renderInt (v : Int) : Str :=
  if v < 0 then '-' :: renderNat v.natAbs else renderNat v.toNat

/-- What `iss >> word` does on the text left in the stream: skip white space, read up to the
next white space; returns the word and the text left. -/
def extractWord (s : Str) : Str × Str :=
  let t := s.dropWhile isspace
  (t.takeWhile (fun c => !isspace c), t.dropWhile (fun c => !isspace c))

/-! ## JSON codec -/

/-- The source's `parseJsonString` (server.cpp 231-251). -/
def parseJsonString (json key : Str) : Str :=
  let search := ['"'] ++ key ++ ['"']
  match find json search 0 with
  | none => []
  | some p =>
    let pos := skipLoop (fun c => c == ' ' || c == ':') (json.drop (p + search.length))
      (p + search.length)
    if json.length ≤ pos ∨ json[pos]? ≠ some '"' then []
    else
      match find json ['"'] (pos + 1) with
      | none => []
      | some e => substr json (pos + 1) (e - (pos + 1))

/-- The source's `parseJsonInt` (server.cpp 253-269); `std::stoi` may throw. -/
def parseJsonInt (json key : Str) : Except StdError Int :=
  let search := ['"'] ++ key ++ ['"', ':']
  match find json search 0 with
  | none => .ok 0
  | some p =>
    let pos := skipLoop isspace (json.drop (p + search.length)) (p + search.length)
    let e := skipLoop (fun c => isdigit c || c == '-') (json.drop pos) pos
    if pos = e then .ok 0 else stoi (substr json pos (e - pos))

/-- The loop of `vectorToJson`: `rest` holds `vec[i], vec[i+1], ...`, `size` is `vec.size()` and
`oss` the text written so far.  The loop only runs when `size > 0`, so `size - 1` does not
wrap. -/
def vectorToJsonLoop (size : Nat) : List Int → Nat → Str → Str
  | [], _, oss => oss
  | x :: rest, i, oss =>
    let oss1 := oss ++ renderInt x
    vectorToJsonLoop size rest (i + 1) (if i < size - 1 then oss1 ++ [','] else oss1)

/-- The source's `vectorToJson` (server.cpp 271-280). -/
def vectorToJson (vec : List Int) : Str :=
  vectorToJsonLoop vec.length vec 0 ['['] ++ [']']

/-- The `switch` of `escapeJson`: what one byte writes to the stream. -/
def escapeByte (c : Char) : Str :=
  match c with
  | '"' => "\\\"".toList
  | '\\' => "\\\\".toList
  | '\n' => "\\n".toList
  | '\r' => "\\r".toList
  | '\t' => "\\t".toList
  | other => [other]

/-- The source's `escapeJson` (server.cpp 282-295). -/
def escapeJson (s : Str) : Str := s.foldl (fun o c => o ++ escapeByte c) []

/-! ## RPC adapter (`BingoStub`) -/

/-- Response message of `CreateGame`, with the field the gateway reads. -/
structure CreateGameResponse where
  game_id : Str

/-- Response message of `RegisterPlayer`. -/
structure RegisterPlayerResponse where
  success : Bool
  player_id : Str
  card_numbers : List Int

/-- Response message of `DrawNumber`. -/
structure DrawNumberResponse where
  success : Bool
  number : Int

/-- Response message of `MarkNumber`. -/
structure MarkNumberResponse where
  success : Bool

/-- Response message of `CheckBingo`. -/
structure CheckBingoResponse where
  bingo : Bool

/-- Response message of `GetCard`. -/
structure GetCardResponse where
  card_numbers : List Int

/-- The two backend services as the adapter sees them: every call takes the fields of the request
message and gives back whether the transport status is ok, and the response message. -/
structure Backend where
  CreateGame : Str → Bool × CreateGameResponse
  RegisterPlayer : Str → Str → Bool × RegisterPlayerResponse
  DrawNumber : Str → Bool × DrawNumberResponse
  MarkNumber : Str → Str → Int → Bool × MarkNumberResponse
  CheckBingo : Str → Str → Bool × CheckBingoResponse
  GetCard : Str → Bool × GetCardResponse

/-- The source's `BingoStub::PlayerInfo`. -/
structure PlayerInfo where
  player_id : Str
  card : List Int
  success : Bool

/-- The source's `BingoStub::DrawResult`. -/
structure DrawResult where
  number : Int
  success : Bool

/-- The loop `for (i = 0; i < response.card_numbers_size(); ++i) card.push_back(...)`. -/
def copyCard (card_numbers : List Int) : List Int :=
  card_numbers.foldl (fun card x => card ++ [x]) []

/-- The source's `BingoStub::CreateGame` (server.cpp 50-66). -/
def BingoStub.CreateGame (stub : Backend) (game_name : Str) : Str :=
  let (ok, response) := stub.CreateGame game_name
  if ok then response.game_id else []

/-- The source's `BingoStub::RegisterPlayer` (server.cpp 75-124). -/
def BingoStub.RegisterPlayer (stub : Backend) (game_id player_name : Str) : PlayerInfo :=
  let (ok, response) := stub.RegisterPlayer game_id player_name
  if ok && response.success then
    { player_id := response.player_id, card := copyCard response.card_numbers, success := true }
  else
    { player_id := [], card := [], success := false }

/-- The source's `BingoStub::DrawNumber` (server.cpp 132-159). -/
def BingoStub.DrawNumber (stub : Backend) (game_id : Str) : DrawResult :=
  let (ok, response) := stub.DrawNumber game_id
  if ok && response.success then { number := response.number, success := true }
  else { number := 0, success := false }

/-- The source's `BingoStub::MarkNumber` (server.cpp 162-182). -/
def BingoStub.MarkNumber (stub : Backend) (game_id player_id : Str) (number : Int) : Bool :=
  let (ok, response) := stub.MarkNumber game_id player_id number
  if ok && response.success then true else false

/-- The source's `BingoStub::CheckBingo` (server.cpp 185-207). -/
def BingoStub.CheckBingo (stub : Backend) (game_id player_id : Str) : Bool :=
  let (ok, response) := stub.CheckBingo game_id player_id
  if ok then response.bingo else false

/-- The source's `BingoStub::GetCard` (server.cpp 210-227). -/
def BingoStub.GetCard (stub : Backend) (player_id : Str) : List Int :=
  let (ok, response) := stub.GetCard player_id
  if ok then copyCard response.card_numbers else []

/-! ## Route dispatcher (`SimpleHttpServer::handleRequest`) -/

/-- Status line and headers of every JSON answer with status 200, blank line included. -/
def jsonOkHead : Str :=
  "HTTP/1.1 200 OK\r\n".toList ++ "Content-Type: application/json\r\n".toList
    ++ "Access-Control-Allow-Origin: *\r\n".toList ++ "Connection: close\r\n".toList
    ++ "\r\n".toList

/-- The fixed answer to an unmatched request (server.cpp 454-457). -/
def notFoundResponse : Str :=
  "HTTP/1.1 404 Not Found\r\n".toList ++ "Content-Type: application/json\r\n".toList
    ++ "\r\n".toList ++ "\x7b\"error\":\"Endpoint not found\"\x7d".toList

/-- The HTML of the landing page (server.cpp 315-342), byte for byte. -/
def landingHtml : Str :=
  ("<!DOCTYPE html><html><head><title>Bingo gRPC Stub</title><style>body\x7bfont-fam"
    ++ "ily:Arial;margin:40px;\x7dh1\x7bcolor:#333;\x7d.endpoint\x7bbackground:#f4f4f4;p"
    ++ "adding:15px;margin:10px 0;border-left:4px solid #007bff;\x7dcode\x7bbackground:#"
    ++ "e0e0e0;padding:2px 6px;border-radius:3px;\x7d</style></head><body><h1>\xf0\x9f"
    ++ "\x8e\xae Bingo gRPC API Gateway</h1><p>Stub C++ conectado aos servi\xc3\xa7os Py"
    ++ "thon via gRPC</p><h2>Endpoints Dispon\xc3\xadveis:</h2><div class=\x27endpoint"
    ++ "\x27><b>POST /game/create</b><br>Cria um novo jogo<br><code>\x7b\"game_name\":\""
    ++ "Meu Bingo\"\x7d</code></div><div class=\x27endpoint\x27><b>POST /game/register</"
    ++ "b><br>Registra um jogador<br><code>\x7b\"game_id\":\"...\",\"player_name\":\"Ali"
    ++ "ce\"\x7d</code></div><div class=\x27endpoint\x27><b>POST /game/draw</b><br>Sorte"
    ++ "ia um n\xc3\xbamero<br><code>\x7b\"game_id\":\"...\"\x7d</code></div><div class="
    ++ "\x27endpoint\x27><b>POST /game/mark</b><br>Marca um n\xc3\xbamero na cartela<br>"
    ++ "<code>\x7b\"game_id\":\"...\",\"player_id\":\"...\",\"number\":42\x7d</code></di"
    ++ "v><div class=\x27endpoint\x27><b>POST /game/bingo</b><br>Declara BINGO<br><code>"
    ++ "\x7b\"game_id\":\"...\",\"player_id\":\"...\"\x7d</code></div><div class=\x27end"
    ++ "point\x27><b>GET /game/card?player_id=...</b><br>Obt\xc3\xa9m cartela do jogador"
    ++ "</div></body></html>").toList

/-- The landing page answered to `GET /` (server.cpp 312-342). -/
def landingPage : Str :=
  "HTTP/1.1 200 OK\r\n".toList ++ "Content-Type: text/html; charset=utf-8\r\n".toList
    ++ "\r\n".toList ++ landingHtml

/-- The text `true` or `false` a boolean is written as. -/
def boolText (b : Bool) : Str := if b then "true".toList else "false".toList

/-- The source's `handleRequest` (server.cpp 303-458); an exception of `parseJsonInt` leaves
it without an answer. -/
def handleRequest (stub : Backend) (method path body : Str) : Except StdError Str :=
  if method = "GET".toList ∧ path = "/".toList then .ok landingPage
  else if method = "POST".toList ∧ path = "/game/create".toList then
    let game_name := parseJsonString body "game_name".toList
    let game_name := if game_name = [] then "Bingo Game".toList else game_name
    let game_id := BingoStub.CreateGame stub game_name
    .ok (jsonOkHead ++ ("\x7b\"game_id\":\"".toList ++ escapeJson game_id ++ "\",".toList
      ++ "\"success\":".toList ++ boolText (!game_id.isEmpty) ++ "\x7d".toList))
  else if method = "POST".toList ∧ path = "/game/register".toList then
    let game_id := parseJsonString body "game_id".toList
    let player_name := parseJsonString body "player_name".toList
    let result := BingoStub.RegisterPlayer stub game_id player_name
    .ok (jsonOkHead ++ ("\x7b\"player_id\":\"".toList ++ escapeJson result.player_id
      ++ "\",".toList ++ "\"card\":".toList ++ vectorToJson result.card ++ ",".toList
      ++ "\"success\":".toList ++ boolText result.success ++ "\x7d".toList))
  else if method = "POST".toList ∧ path = "/game/draw".toList then
    let game_id := parseJsonString body "game_id".toList
    let result := BingoStub.DrawNumber stub game_id
    .ok (jsonOkHead ++ ("\x7b\"number\":".toList ++ renderInt result.number ++ ",".toList
      ++ "\"success\":".toList ++ boolText result.success ++ "\x7d".toList))
  else if method = "POST".toList ∧ path = "/game/mark".toList then
    let game_id := parseJsonString body "game_id".toList
    let player_id := parseJsonString body "player_id".toList
    match parseJsonInt body "number".toList with
    | .error e => .error e
    | .ok number =>
      let success := BingoStub.MarkNumber stub game_id player_id number
      .ok (jsonOkHead ++ ("\x7b\"success\":".toList ++ boolText success ++ "\x7d".toList))
  else if method = "POST".toList ∧ path = "/game/bingo".toList then
    let game_id := parseJsonString body "game_id".toList
    let player_id := parseJsonString body "player_id".toList
    let bingo := BingoStub.CheckBingo stub game_id player_id
    .ok (jsonOkHead ++ ("\x7b\"bingo\":".toList ++ boolText bingo ++ "\x7d".toList))
  else
    match (if method = "GET".toList ∧ find path "/game/card".toList 0 = some 0
        then find path "player_id=".toList 0 else none) with
    | some pos =>
      let player_id := path.drop (pos + 10)
      let card := BingoStub.GetCard stub player_id
      .ok (jsonOkHead ++ ("\x7b\"player_id\":\"".toList ++ escapeJson player_id ++ "\",".toList
        ++ "\"card\":".toList ++ vectorToJson card ++ "\x7d".toList))
    | none => .ok notFoundResponse

/-! ## HTTP framer (the request handling inside `SimpleHttpServer::start`) -/

/-- The body handed to the dispatcher (server.cpp 526-548); `std::stoul` may throw.  In
`cl_line.substr(15, nl_pos - 15)` the difference does not wrap: `cl_line` starts with the 15
bytes of `Content-Length:`, none of which is a carriage return. -/
def frameBody (request : Str) : Except StdError Str :=
  match find request "\r\n\r\n".toList 0 with
  | none => .ok []
  | some body_pos =>
    let body := request.drop (body_pos + 4)
    if body = [] then .ok body
    else
      match find request "Content-Length:".toList 0 with
      | none => .ok body
      | some cl_pos =>
        let cl_line := request.drop cl_pos
        match find cl_line "\r\n".toList 0 with
        | none => .ok body
        | some nl_pos =>
          let cl_value := (substr cl_line 15 (nl_pos - 15)).dropWhile
            (fun c => c == ' ' || c == '\t')
          match stoul cl_value with
          | .error e => .error e
          | .ok content_length =>
            if content_length < body.length then .ok (body.take content_length) else .ok body

/-- One request of the accept loop (server.cpp 520-550): method, path and body are split off the
bytes read and handed to the dispatcher; the result is the answer written to the client. -/
def serveRequest (stub : Backend) (request : Str) : Except StdError Str :=
  let (method, rest) := extractWord request
  let (path, _) := extractWord rest
  match frameBody request with
  | .error e => .error e
  | .ok body => handleRequest stub method path body

/-! ### Reference descriptions the codec is compared with -/

/-- Reading of a signed decimal: an optional leading `-`, then one or more digits and nothing
else. -/
def parseSignedDecimal : Str → Option Int
  | '-' :: ds => if ds ≠ [] ∧ ds.all isdigit = true then some (-(digitsValue ds : Int)) else none
  | ds => if ds ≠ [] ∧ ds.all isdigit = true then some (digitsValue ds : Int) else none

/-- Reading a rendered sequence back: strip the brackets, split what is between them on
commas and parse each piece as a signed decimal; nothing between the brackets is the empty
sequence. -/
def readSequence : Str → Option (List Int)
  | '[' :: rest =>
    if rest.getLast? = some ']' then
      if rest.dropLast = [] then some []
      else (rest.dropLast.splitOn ',').mapM parseSignedDecimal
    else none
  | _ => none

/-- The image of one byte under escaping, as the contract lists it. -/
def escapeImage (c : Char) : Str :=
  if c = '"' then ['\\', '"']
  else if c = '\\' then ['\\', '\\']
  else if c = '\n' then ['\\', 'n']
  else if c = '\r' then ['\\', 'r']
  else if c = '\t' then ['\\', 't']
  else [c]

/-! ### Reference descriptions the framer and the dispatcher are compared with -/

/-- The byte an escape pair stands for, given the byte after the backslash. -/
def unescapeByte (c : Char) : Char :=
  if c = 'n' then '\n' else if c = 'r' then '\r' else if c = 't' then '\t' else c

/-- Reading an escaped text back: a backslash and the byte after it stand for one byte, every
other byte stands for itself. -/
def unescapeJson : Str → Str
  | [] => []
  | [c] => [c]
  | c :: d :: rest =>
    if c = '\\' then unescapeByte d :: unescapeJson rest else c :: unescapeJson (d :: rest)

/-- The status line of an answer: the bytes before its first CRLF. -/
def statusLine (response : Str) : Str :=
  match find response "\r\n".toList 0 with
  | some i => response.take i
  | none => response

/-- The body of an answer: the bytes after its first blank line (CRLF CRLF). -/
def responseBody (response : Str) : Str :=
  match find response "\r\n\r\n".toList 0 with
  | some i => response.drop (i + 4)
  | none => []

/-- The header block of an answer: the bytes before its first blank line (CRLF CRLF), status
line included. -/
def headerBlock (response : Str) : Str :=
  match find response "\r\n\r\n".toList 0 with
  | some i => response.take i
  | none => response

/-- The exact routes of the dispatch table. -/
def exactRoute (method path : Str) : Prop :=
  (method = "GET".toList ∧ path = "/".toList) ∨
  (method = "POST".toList ∧
    (path = "/game/create".toList ∨ path = "/game/register".toList ∨
      path = "/game/draw".toList ∨ path = "/game/mark".toList ∨ path = "/game/bingo".toList))

/-- The card route: a `GET` whose path starts with `/game/card` and holds the text
`player_id=`. -/
def cardRoute (method path : Str) : Prop :=
  method = "GET".toList ∧ "/game/card".toList <+: path ∧ "player_id=".toList <:+: path

instance decExactRoute (method path : Str) : Decidable (exactRoute method path) := by
  unfold exactRoute
  infer_instance

instance decCardRoute (method path : Str) : Decidable (cardRoute method path) := by
  unfold cardRoute
  infer_instance

/-- A backend that answers every call and accepts it, with the payloads of the end-to-end
scenarios. -/
def acceptingBackend : Backend where
  CreateGame := fun _ => (true, ⟨"g-1".toList⟩)
  RegisterPlayer := fun _ _ => (true, ⟨true, "p-1".toList, [4, 8, 15, 16, 23]⟩)
  DrawNumber := fun _ => (true, ⟨true, 42⟩)
  MarkNumber := fun _ _ _ => (true, ⟨true⟩)
  CheckBingo := fun _ _ => (true, ⟨true⟩)
  GetCard := fun _ => (true, ⟨[4, 8, 15, 16, 23]⟩)

/-- A backend that answers every call but refuses it (`success = false`), still filling the
payload fields of its response. -/
def refusingBackend : Backend where
  CreateGame := fun _ => (true, ⟨[]⟩)
  RegisterPlayer := fun _ _ => (true, ⟨false, "p-9".toList, [1, 2, 3]⟩)
  DrawNumber := fun _ => (true, ⟨false, 77⟩)
  MarkNumber := fun _ _ _ => (true, ⟨false⟩)
  CheckBingo := fun _ _ => (true, ⟨false⟩)
  GetCard := fun _ => (true, ⟨[]⟩)

/-- A backend that echoes what it is sent: the game id of `CreateGame` is the name received, the
player id of `RegisterPlayer` is the game id and the player name received, joined by `|`. -/
def echoBackend : Backend where
  CreateGame := fun name => (true, ⟨name⟩)
  RegisterPlayer := fun game_id player_name => (true, ⟨true, game_id ++ '|' :: player_name, []⟩)
  DrawNumber := fun _ => (true, ⟨true, 0⟩)
  MarkNumber := fun _ _ _ => (true, ⟨true⟩)
  CheckBingo := fun _ _ => (true, ⟨true⟩)
  GetCard := fun _ => (true, ⟨[]⟩)

/-- A backend that behaves as `acceptingBackend` on arguments without a double quote and is
unreachable on any argument that holds one. -/
def quoteShyBackend : Backend where
  CreateGame := fun n => if '"' ∈ n then (false, ⟨[]⟩) else (true, ⟨"g-1".toList⟩)
  RegisterPlayer := fun g n =>
    if '"' ∈ g ∨ '"' ∈ n then (false, ⟨false, [], []⟩)
    else (true, ⟨true, "p-1".toList, [4, 8, 15, 16, 23]⟩)
  DrawNumber := fun g => if '"' ∈ g then (false, ⟨false, 0⟩) else (true, ⟨true, 42⟩)
  MarkNumber := fun g p _ => if '"' ∈ g ∨ '"' ∈ p then (false, ⟨false⟩) else (true, ⟨true⟩)
  CheckBingo := fun g p => if '"' ∈ g ∨ '"' ∈ p then (false, ⟨false⟩) else (true, ⟨true⟩)
  GetCard := fun _ => (true, ⟨[4, 8, 15, 16, 23]⟩)

/-- A backend that is unreachable: every call fails at transport level. -/
def downBackend : Backend where
  CreateGame := fun _ => (false, ⟨[]⟩)
  RegisterPlayer := fun _ _ => (false, ⟨false, [], []⟩)
  DrawNumber := fun _ => (false, ⟨false, 0⟩)
  MarkNumber := fun _ _ _ => (false, ⟨false⟩)
  CheckBingo := fun _ _ => (false, ⟨false⟩)
  GetCard := fun _ => (false, ⟨[]⟩)

/-! ## Facts about the library functions -/

theorem findFrom_cons (pat : Str) (c : Char) (rest : Str) (pos : Nat) :
    findFrom pat (c :: rest) pos =
      if pat.isPrefixOf (c :: rest) then some pos else findFrom pat rest (pos + 1) := by
  rw [findFrom]

theorem findFrom_of_first (pat : Str) :
    ∀ (P R : Str) (k : Nat),
      (∀ P1 R1 : Str, P ++ pat ++ R = P1 ++ pat ++ R1 → P.length ≤ P1.length) →
      findFrom pat (P ++ pat ++ R) k = some (k + P.length)
  | [], R, k, _ => by
    cases hs : ([] ++ pat ++ R : Str) with
    | nil => 
      have : pat = [] := by
        simp at hs; exact hs.1
      simp [findFrom, this]
    | cons c rest =>
      have hp : pat.isPrefixOf (c :: rest) = true := by
        rw [← hs]; simp [List.isPrefixOf_iff_prefix]
      simp [findFrom, hp]
  | c :: P, R, k, h => by
    have hp : pat.isPrefixOf (c :: (P ++ pat ++ R)) = false := by
      cases hb : pat.isPrefixOf (c :: (P ++ pat ++ R)) with
      | false => rfl
      | true =>
        rw [List.isPrefixOf_iff_prefix] at hb
        obtain ⟨R1, hR1⟩ := hb
        have := h [] R1 (by simpa using hR1.symm)
        simp at this
    have ih := findFrom_of_first pat P R (k + 1) (fun P1 R1 e => by
      have := h (c :: P1) R1 (by simpa using e)
      simpa using this)
    have e : findFrom pat (c :: P ++ pat ++ R) k = findFrom pat (P ++ pat ++ R) (k + 1) := by
      show findFrom pat (c :: (P ++ pat ++ R)) k = _
      rw [findFrom_cons, hp]; rfl
    rw [e, ih, List.length_cons]
    congr 1; omega

theorem findFrom_some (pat : Str) :
    ∀ (s : Str) (k j : Nat), findFrom pat s k = some j →
      ∃ P R : Str, s = P ++ pat ++ R ∧ j = k + P.length ∧
        ∀ P1 R1 : Str, s = P1 ++ pat ++ R1 → P.length ≤ P1.length
  | [], k, j, h => by
    by_cases hp : pat = []
    · subst hp
      simp [findFrom] at h
      exact ⟨[], [], by simp, by simp [h], by simp⟩
    · simp [findFrom, hp] at h
  | c :: rest, k, j, h => by
    cases hb : pat.isPrefixOf (c :: rest) with
    | true =>
      simp [findFrom, hb] at h
      rw [List.isPrefixOf_iff_prefix] at hb
      obtain ⟨R, hR⟩ := hb
      exact ⟨[], R, by simpa using hR.symm, by simp [h], by simp⟩
    | false =>
      simp [findFrom, hb] at h
      obtain ⟨P, R, hs, hj, hmin⟩ := findFrom_some pat rest (k + 1) j h
      refine ⟨c :: P, R, by simp [hs], by simp [hj]; omega, ?_⟩
      intro P1 R1 e
      cases P1 with
      | nil =>
        exfalso
        have : pat.isPrefixOf (c :: rest) = true := by
          rw [List.isPrefixOf_iff_prefix, e]; simp
        rw [hb] at this; cases this
      | cons d P2 =>
        simp at e
        have := hmin P2 R1 (by simpa using e.2)
        simp; omega

theorem findFrom_none_of_absent (pat s : Str) (k : Nat) (h : ¬ pat <:+: s) :
    findFrom pat s k = none := by
  cases hf : findFrom pat s k with
  | none => rfl
  | some j =>
    obtain ⟨P, R, hs, _, _⟩ := findFrom_some pat s k j hf
    exact absurd ⟨P, R, hs.symm⟩ h

theorem skipLoop_run (p : Char → Bool) :
    ∀ (S T : Str) (k : Nat), (∀ c ∈ S, p c = true) → (∀ c ∈ T.head?, p c = false) →
      skipLoop p (S ++ T) k = k + S.length
  | [], [], k, _, _ => by simp [skipLoop]
  | [], c :: T, k, _, hT => by
    have : p c = false := hT c (by simp)
    simp [skipLoop, this]
  | c :: S, T, k, hS, hT => by
    have hc : p c = true := hS c (by simp)
    have ih := skipLoop_run p S T (k + 1) (fun d hd => hS d (by simp [hd])) hT
    show skipLoop p (c :: (S ++ T)) k = _
    rw [skipLoop, if_pos hc, ih, List.length_cons]; omega

theorem find_zero (s pat : Str) : find s pat 0 = findFrom pat s 0 := by
  simp [find]

theorem find_none_of_absent (s pat : Str) (h : ¬ pat <:+: s) : find s pat 0 = none := by
  rw [find_zero]; exact findFrom_none_of_absent pat s 0 h

theorem find_of_first (P pat R : Str)
    (h : ∀ P1 R1 : Str, P ++ pat ++ R = P1 ++ pat ++ R1 → P.length ≤ P1.length) :
    find (P ++ pat ++ R) pat 0 = some P.length := by
  rw [find_zero, findFrom_of_first pat P R 0 h]; simp

theorem find_after (A pat : Str) (P R : Str)
    (h : ∀ P1 R1 : Str, P ++ pat ++ R = P1 ++ pat ++ R1 → P.length ≤ P1.length) :
    find (A ++ (P ++ pat ++ R)) pat A.length = some (A.length + P.length) := by
  have hl : ¬ (A ++ (P ++ pat ++ R)).length < A.length := by simp
  rw [find, if_neg hl, List.drop_left, findFrom_of_first pat P R A.length h]

theorem first_of_not_mem (c : Char) (v R : Str) (hv : c ∉ v) :
    ∀ P1 R1 : Str, v ++ [c] ++ R = P1 ++ [c] ++ R1 → v.length ≤ P1.length := by
  intro P1 R1 e
  by_contra hlt
  push_neg at hlt
  have h1 : (v ++ [c] ++ R)[P1.length]? = some c := by
    rw [e, List.append_assoc, List.getElem?_append_right (le_refl _)]; simp
  have h2 : (v ++ [c] ++ R)[P1.length]? = v[P1.length]? := by
    rw [List.append_assoc, List.getElem?_append_left hlt]
  rw [h2] at h1
  exact hv (List.getElem?_mem h1)

/-- C1. When the body does not contain the key wrapped in double quotes, `parseJsonString`
returns the empty string and `parseJsonInt` returns 0. -/
theorem parseJson_key_absent (body key : Str) (h : ¬ (['"'] ++ key ++ ['"']) <:+: body) :
    parseJsonString body key = [] ∧ parseJsonInt body key = .ok 0 := by
  constructor
  · simp only [parseJsonString]
    rw [find_none_of_absent body _ h]
  · have h2 : ¬ (['"'] ++ key ++ ['"', ':']) <:+: body := by
      rintro ⟨P, R, e⟩
      exact h ⟨P, ':' :: R, by rw [← e]; simp⟩
    simp only [parseJsonInt]
    rw [find_none_of_absent body _ h2]

theorem parseJson_key_absent_witness :
    ¬ (['"'] ++ "game_id".toList ++ ['"']) <:+: "\x7b\"player\":\"p-1\"\x7d".toList ∧
    parseJsonString "\x7b\"player\":\"p-1\"\x7d".toList "game_id".toList = [] ∧
    parseJsonInt "\x7b\"player\":\"p-1\"\x7d".toList "game_id".toList = .ok 0 :=
  ⟨by decide, parseJson_key_absent _ _ (by decide)⟩

theorem parseJsonString_value_of_first (P key S v R : Str)
    (hfirst : ∀ P1 R1 : Str,
      P ++ (['"'] ++ key ++ ['"']) ++ (S ++ ['"'] ++ v ++ ['"'] ++ R)
        = P1 ++ (['"'] ++ key ++ ['"']) ++ R1 → P.length ≤ P1.length)
    (hS : ∀ c ∈ S, c = ' ' ∨ c = ':')
    (hv : '"' ∉ v) :
    parseJsonString (P ++ (['"'] ++ key ++ ['"']) ++ (S ++ ['"'] ++ v ++ ['"'] ++ R)) key = v := by
  set Q : Str := ['"'] ++ key ++ ['"'] with hQ
  have hbody : S ++ ['"'] ++ v ++ ['"'] ++ R = S ++ ('"' :: (v ++ ['"'] ++ R)) := by simp
  rw [hbody] at hfirst ⊢
  set T : Str := '"' :: (v ++ ['"'] ++ R) with hT
  have hfind : find (P ++ Q ++ (S ++ T)) Q 0 = some P.length := find_of_first P Q (S ++ T) hfirst
  have hdrop : (P ++ Q ++ (S ++ T)).drop (P.length + Q.length) = S ++ T :=
    List.drop_left' (by simp)
  have hskip : skipLoop (fun c => c == ' ' || c == ':') (S ++ T) (P.length + Q.length)
      = P.length + Q.length + S.length :=
    skipLoop_run _ S T _ (fun c hc => by rcases hS c hc with h | h <;> simp [h])
      (fun c hc => by
        simp [hT] at hc
        subst hc
        decide)
  have hsplit : P ++ Q ++ (S ++ T) = (P ++ Q ++ S ++ ['"']) ++ (v ++ ['"'] ++ R) := by
    simp [hT]
  have hget : (P ++ Q ++ (S ++ T))[P.length + Q.length + S.length]? = some '"' := by
    have : P ++ Q ++ (S ++ T) = (P ++ Q ++ S) ++ T := by simp
    rw [this, List.getElem?_append_right (by simp [Nat.add_assoc])]
    simp [hT, Nat.add_assoc]
  have hlen : ¬ (P ++ Q ++ (S ++ T)).length ≤ P.length + Q.length + S.length := by
    simp [hT]; omega
  have hfind2 : find (P ++ Q ++ (S ++ T)) ['"'] (P.length + Q.length + S.length + 1)
      = some (P.length + Q.length + S.length + 1 + v.length) := by
    rw [hsplit]
    have := find_after (P ++ Q ++ S ++ ['"']) ['"'] v R (first_of_not_mem '"' v R hv)
    rw [show (P ++ Q ++ S ++ ['"']).length = P.length + Q.length + S.length + 1 by
      simp [Nat.add_assoc]] at this
    exact this
  have hsub : substr (P ++ Q ++ (S ++ T)) (P.length + Q.length + S.length + 1)
      (P.length + Q.length + S.length + 1 + v.length - (P.length + Q.length + S.length + 1)) = v := by
    rw [hsplit, substr, List.drop_left' (by simp [Nat.add_assoc]), Nat.add_sub_cancel_left]
    simp
  simp only [parseJsonString]
  rw [← hQ, hfind]
  simp only [hdrop, hskip, hget, hlen, hfind2, hsub]
  simp

theorem first_of_find (P pat R : Str) (h : find (P ++ pat ++ R) pat 0 = some P.length) :
    ∀ P1 R1 : Str, P ++ pat ++ R = P1 ++ pat ++ R1 → P.length ≤ P1.length := by
  rw [find_zero] at h
  obtain ⟨P2, R2, _, hj, hmin⟩ := findFrom_some pat _ 0 _ h
  intro P1 R1 e
  have := hmin P1 R1 e
  omega

/-- C3. On a body `P ++ "key" ++ S ++ " ++ v ++ " ++ R` (the key wrapped in double quotes, its
first occurrence in the body being the one right after `P`; `S` only spaces and colons; `v`
without a double quote) `parseJsonString` returns exactly `v`: the value of the first
occurrence, however many further occurrences `R` holds. -/
theorem parseJsonString_value (P key S v R : Str)
    (hfirst : ∀ P1 R1 : Str,
      P ++ (['"'] ++ key ++ ['"']) ++ (S ++ ['"'] ++ v ++ ['"'] ++ R)
        = P1 ++ (['"'] ++ key ++ ['"']) ++ R1 → P.length ≤ P1.length)
    (hS : ∀ c ∈ S, c = ' ' ∨ c = ':')
    (hv : '"' ∉ v) :
    parseJsonString (P ++ (['"'] ++ key ++ ['"']) ++ (S ++ ['"'] ++ v ++ ['"'] ++ R)) key = v :=
  parseJsonString_value_of_first P key S v R hfirst hS hv

theorem parseJsonString_value_witness :
    parseJsonString "\x7b\"a\": \"x y\",\"a\":\"2\"\x7d".toList "a".toList = "x y".toList :=
  parseJsonString_value "\x7b".toList "a".toList ": ".toList "x y".toList
    ",\"a\":\"2\"\x7d".toList (first_of_find _ _ _ (by decide)) (by decide) (by decide)

/-- C2. On the body `{"number":-}` the text after `"number":` is a lone `-`, without a digit;
`parseJsonInt` hands it to `std::stoi`, which throws `invalid_argument` instead of giving 0. -/
theorem parseJsonInt_lone_minus :
    parseJsonInt "\x7b\"number\":-\x7d".toList "number".toList = .error .invalid_argument := by
  decide

theorem digitChar_toNat (d : Nat) (h : d < 10) : (Char.ofNat (48 + d)).toNat = 48 + d := by
  interval_cases d <;> rfl

theorem digitsValue_append (ds : Str) (c : Char) :
    digitsValue (ds ++ [c]) = 10 * digitsValue ds + digitValue c := by
  simp [digitsValue, List.foldl_append]

theorem renderNatAux_spec :
    ∀ (fuel n : Nat) (acc : Str), n < fuel →
      ∃ ds : Str, ds ≠ [] ∧ (∀ c ∈ ds, isdigit c = true) ∧ digitsValue ds = n ∧
        renderNatAux fuel n acc = ds ++ acc
  | 0, n, acc, h => by omega
  | fuel + 1, n, acc, h => by
    have hd : n % 10 < 10 := Nat.mod_lt _ (by norm_num)
    have hc := digitChar_toNat (n % 10) hd
    have hdig : isdigit (Char.ofNat (48 + n % 10)) = true := by
      simp only [isdigit, hc]; simp; omega
    have hval : digitValue (Char.ofNat (48 + n % 10)) = n % 10 := by
      simp only [digitValue, hc]; omega
    by_cases h0 : n / 10 = 0
    · refine ⟨[Char.ofNat (48 + n % 10)], by simp, by simpa using hdig, ?_, ?_⟩
      · simp only [digitsValue, List.foldl, hval]; omega
      · simp [renderNatAux, h0]
    · have hlt : n / 10 < fuel := by omega
      obtain ⟨ds, hne, hall, hv, hr⟩ :=
        renderNatAux_spec fuel (n / 10) (Char.ofNat (48 + n % 10) :: acc) hlt
      refine ⟨ds ++ [Char.ofNat (48 + n % 10)], by simp, ?_, ?_, ?_⟩
      · intro c hc
        rcases List.mem_append.mp hc with h1 | h1
        · exact hall c h1
        · simp at h1; rw [h1]; exact hdig
      · rw [digitsValue_append, hv, hval]; omega
      · simp [renderNatAux, h0, hr]

theorem renderNat_spec (n : Nat) :
    renderNat n ≠ [] ∧ (∀ c ∈ renderNat n, isdigit c = true) ∧ digitsValue (renderNat n) = n := by
  obtain ⟨ds, hne, hall, hv, hr⟩ := renderNatAux_spec (n + 1) n [] (by omega)
  have : renderNat n = ds := by simp [renderNat, hr]
  rw [this]; exact ⟨hne, hall, hv⟩

theorem isdigit_not_isspace (c : Char) (h : isdigit c = true) : isspace c = false := by
  simp only [isdigit, Bool.and_eq_true, decide_eq_true_eq] at h
  simp only [isspace, Bool.or_eq_false_iff, Bool.and_eq_false_iff, decide_eq_false_iff_not]
  omega

theorem splitSign_digit (c : Char) (r : Str) (h : isdigit c = true) :
    splitSign (c :: r) = (false, c :: r) := by
  have h1 : c ≠ '-' := by rintro rfl; revert h; decide
  have h2 : c ≠ '+' := by rintro rfl; revert h; decide
  unfold splitSign
  split
  · rename_i r1 heq
    exact absurd (List.cons.inj heq).1 h1
  · rename_i r1 heq
    exact absurd (List.cons.inj heq).1 h2
  · rfl

theorem takeWhile_all (p : Char → Bool) (ds : Str) (h : ∀ c ∈ ds, p c = true) :
    ds.takeWhile p = ds := by
  induction ds with
  | nil => rfl
  | cons c r ih =>
    have hc := h c (by simp)
    rw [List.takeWhile_cons, hc]
    simp [ih (fun d hd => h d (by simp [hd]))]

theorem stoi_renderNat (n : Nat) (h : n ≤ 2147483647) : stoi (renderNat n) = .ok (n : Int) := by
  obtain ⟨hne, hall, hv⟩ := renderNat_spec n
  cases hr : renderNat n with
  | nil => exact absurd hr hne
  | cons c r =>
    rw [hr] at hall hv
    have hc := hall c (by simp)
    have hsp : (c :: r).dropWhile isspace = c :: r := by
      rw [List.dropWhile_cons, isdigit_not_isspace c hc]; simp
    simp only [stoi, hsp, splitSign_digit c r hc, takeWhile_all isdigit (c :: r) hall, hv]
    simp
    omega

theorem stoi_renderInt (v : Int) (h1 : -2147483648 ≤ v) (h2 : v ≤ 2147483647) :
    stoi (renderInt v) = .ok v := by
  by_cases hneg : v < 0
  · obtain ⟨hne, hall, hv⟩ := renderNat_spec v.natAbs
    have hsp : ('-' :: renderNat v.natAbs).dropWhile isspace = '-' :: renderNat v.natAbs := by
      rw [List.dropWhile_cons]; rfl
    have hs : splitSign ('-' :: renderNat v.natAbs) = (true, renderNat v.natAbs) := rfl
    simp only [renderInt, hneg, if_true, stoi, hsp, hs, takeWhile_all isdigit _ hall, hv, hne,
      if_false]
    have e : -((v.natAbs : Nat) : Int) = v := by omega
    simp only [e]
    rw [if_neg (by omega)]
  · have e : ((v.toNat : Nat) : Int) = v := by omega
    simp only [renderInt, hneg, if_false]
    rw [stoi_renderNat v.toNat (by omega), e]

theorem renderInt_ne_nil (v : Int) : renderInt v ≠ [] := by
  unfold renderInt
  split
  · simp
  · exact (renderNat_spec _).1

theorem renderInt_chars (v : Int) : ∀ c ∈ renderInt v, isdigit c = true ∨ c = '-' := by
  intro c hc
  unfold renderInt at hc
  split at hc
  · rcases List.mem_cons.mp hc with h | h
    · exact Or.inr h
    · exact Or.inl ((renderNat_spec _).2.1 c h)
  · exact Or.inl ((renderNat_spec _).2.1 c hc)

/-- C4. On the body `{"k":` + white space + decimal `n` + `}` with `n` a 32-bit signed integer,
`parseJsonInt` for key `k` returns `n`, negative values included. -/
theorem parseJsonInt_roundtrip (n : Int) (k W : Str)
    (hlo : -2147483648 ≤ n) (hhi : n ≤ 2147483647) (hW : ∀ c ∈ W, isspace c = true) :
    parseJsonInt (['{', '"'] ++ k ++ ['"', ':'] ++ W ++ renderInt n ++ ['}']) k = .ok n := by
  set Q : Str := ['"'] ++ k ++ ['"', ':'] with hQ
  have hbody : ['{', '"'] ++ k ++ ['"', ':'] ++ W ++ renderInt n ++ ['}']
      = ['{'] ++ Q ++ (W ++ (renderInt n ++ ['}'])) := by simp [hQ]
  rw [hbody]
  have hfirst : ∀ P1 R1 : Str, ['{'] ++ Q ++ (W ++ (renderInt n ++ ['}'])) = P1 ++ Q ++ R1 →
      (['{'] : Str).length ≤ P1.length := by
    intro P1 R1 e
    cases P1 with
    | nil => simp [hQ] at e
    | cons c P2 => simp
  have hfind := find_of_first ['{'] Q (W ++ (renderInt n ++ ['}'])) hfirst
  have hdrop : (['{'] ++ Q ++ (W ++ (renderInt n ++ ['}']))).drop (1 + Q.length)
      = W ++ (renderInt n ++ ['}']) := List.drop_left' (by simp; omega)
  obtain ⟨c0, r0, hr0⟩ := List.exists_cons_of_ne_nil (renderInt_ne_nil n)
  have hc0 : isspace c0 = false := by
    rcases renderInt_chars n c0 (by rw [hr0]; simp) with h | h
    · exact isdigit_not_isspace c0 h
    · rw [h]; rfl
  have hskip1 : skipLoop isspace (W ++ (renderInt n ++ ['}'])) (1 + Q.length)
      = 1 + Q.length + W.length :=
    skipLoop_run isspace W _ _ hW (fun c hc => by
      rw [hr0] at hc
      simp at hc
      rw [← hc]; exact hc0)
  have hdrop2 : (['{'] ++ Q ++ (W ++ (renderInt n ++ ['}']))).drop (1 + Q.length + W.length)
      = renderInt n ++ ['}'] := by
    have : ['{'] ++ Q ++ (W ++ (renderInt n ++ ['}'])) = (['{'] ++ Q ++ W) ++ (renderInt n ++ ['}']) := by
      simp
    rw [this]
    exact List.drop_left' (by simp; omega)
  have hskip2 : skipLoop (fun c => isdigit c || c == '-') (renderInt n ++ ['}'])
      (1 + Q.length + W.length) = 1 + Q.length + W.length + (renderInt n).length :=
    skipLoop_run _ (renderInt n) ['}'] _ (fun c hc => by
      rcases renderInt_chars n c hc with h | h <;> simp [h]) (fun c hc => by
      simp at hc
      subst hc
      decide)
  have hne : ¬ (1 + Q.length + W.length = 1 + Q.length + W.length + (renderInt n).length) := by
    have := List.length_pos.mpr (renderInt_ne_nil n)
    omega
  have hsub : substr (['{'] ++ Q ++ (W ++ (renderInt n ++ ['}']))) (1 + Q.length + W.length)
      (1 + Q.length + W.length + (renderInt n).length - (1 + Q.length + W.length)) = renderInt n := by
    rw [substr, hdrop2, Nat.add_sub_cancel_left]
    simp
  simp only [parseJsonInt]
  rw [← hQ, hfind]
  simp only [List.length_singleton, hdrop, hskip1, hdrop2, hskip2, if_neg hne, hsub]
  exact stoi_renderInt n hlo hhi

theorem parseJsonInt_roundtrip_witness :
    (['{', '"'] ++ "number".toList ++ ['"', ':'] ++ " \t".toList ++ renderInt (-2147483648) ++ ['}']
      = "\x7b\"number\": \t-2147483648\x7d".toList) ∧
    parseJsonInt (['{', '"'] ++ "number".toList ++ ['"', ':'] ++ " \t".toList
      ++ renderInt (-2147483648) ++ ['}']) "number".toList = .ok (-2147483648) :=
  ⟨by decide, parseJsonInt_roundtrip (-2147483648) "number".toList " \t".toList (by decide)
    (by decide) (by decide)⟩

theorem vectorToJsonLoop_spec (size : Nat) :
    ∀ (rest : List Int) (i : Nat) (oss : Str), i + rest.length = size →
      vectorToJsonLoop size rest i oss = oss ++ [','].intercalate (rest.map renderInt)
  | [], i, oss, _ => by simp [vectorToJsonLoop, List.intercalate]
  | [x], i, oss, h => by
    have hi : ¬ i < size - 1 := by simp at h; omega
    simp [vectorToJsonLoop, hi, List.intercalate]
  | x :: y :: r, i, oss, h => by
    have hi : i < size - 1 := by simp at h; omega
    have ih := vectorToJsonLoop_spec size (y :: r) (i + 1) (oss ++ renderInt x ++ [','])
      (by simp at h ⊢; omega)
    rw [vectorToJsonLoop]
    simp only [hi, if_true, ih]
    simp [List.intercalate]

theorem vectorToJson_eq_intercalate (v : List Int) :
    vectorToJson v = ['['] ++ [','].intercalate (v.map renderInt) ++ [']'] := by
  rw [vectorToJson, vectorToJsonLoop_spec v.length v 0 ['['] (by simp)]

theorem all_isdigit_of (ds : Str) (h : ∀ c ∈ ds, isdigit c = true) : ds.all isdigit = true := by
  simpa [List.all_eq_true] using h

theorem parseSignedDecimal_renderInt (v : Int) : parseSignedDecimal (renderInt v) = some v := by
  by_cases hneg : v < 0
  · obtain ⟨hne, hall, hv⟩ := renderNat_spec v.natAbs
    have e : -((v.natAbs : Nat) : Int) = v := by omega
    simp only [renderInt, hneg, if_true, parseSignedDecimal]
    rw [if_pos ⟨hne, all_isdigit_of _ hall⟩, hv, e]
  · obtain ⟨hne, hall, hv⟩ := renderNat_spec v.toNat
    have e : ((v.toNat : Nat) : Int) = v := by omega
    simp only [renderInt, hneg, if_false]
    cases hr : renderNat v.toNat with
    | nil => exact absurd hr hne
    | cons c r =>
      rw [hr] at hall hv hne
      have hc := hall c (by simp)
      have h1 : c ≠ '-' := by rintro rfl; revert hc; decide
      unfold parseSignedDecimal
      split
      · rename_i ds heq
        exact absurd (List.cons.inj heq).1 h1
      · rw [if_pos ⟨hne, all_isdigit_of _ hall⟩, hv, e]

theorem mapM_parseSignedDecimal (v : List Int) :
    (v.map renderInt).mapM parseSignedDecimal = some v := by
  induction v with
  | nil => rfl
  | cons x r ih =>
    rw [List.map_cons, List.mapM_cons, parseSignedDecimal_renderInt, ih]
    rfl

theorem comma_not_mem_renderInt (v : Int) : ',' ∉ renderInt v := by
  intro h
  rcases renderInt_chars v ',' h with h1 | h1
  · revert h1; decide
  · revert h1; decide

theorem intercalate_ne_nil (x : Int) (r : List Int) :
    [','].intercalate ((x :: r).map renderInt) ≠ [] := by
  obtain ⟨c, t, hc⟩ := List.exists_cons_of_ne_nil (renderInt_ne_nil x)
  cases r with
  | nil => simp [List.intercalate, hc]
  | cons y r2 => simp [List.intercalate, hc]

theorem readSequence_vectorToJson (v : List Int) : readSequence (vectorToJson v) = some v := by
  rw [vectorToJson_eq_intercalate v]
  show readSequence ('[' :: ([','].intercalate (v.map renderInt) ++ [']'])) = some v
  rw [readSequence, List.getLast?_concat, if_pos rfl, List.dropLast_concat]
  cases v with
  | nil => simp [List.intercalate]
  | cons x r =>
    rw [if_neg (intercalate_ne_nil x r),
      List.splitOn_intercalate _ ',' (fun l hl => by
        obtain ⟨y, _, rfl⟩ := List.mem_map.mp hl
        exact comma_not_mem_renderInt y) (by simp)]
    exact mapM_parseSignedDecimal (x :: r)

/-- C6. Reading `vectorToJson v` back (strip the brackets, split on commas, parse each signed
decimal) gives `v`; encoding what was read gives the same text again; two different sequences
never have the same rendering. -/
theorem vectorToJson_roundtrip :
    (∀ v : List Int, readSequence (vectorToJson v) = some v) ∧
    (∀ v w : List Int, readSequence (vectorToJson v) = some w → vectorToJson w = vectorToJson v) ∧
    (∀ v w : List Int, vectorToJson v = vectorToJson w → v = w) := by
  refine ⟨readSequence_vectorToJson, fun v w h => ?_, fun v w h => ?_⟩
  · rw [readSequence_vectorToJson] at h
    rw [Option.some.inj h]
  · have h1 := readSequence_vectorToJson v
    rw [h, readSequence_vectorToJson] at h1
    exact (Option.some.inj h1).symm

theorem vectorToJson_roundtrip_witness :
    vectorToJson [4, -8, 0, 2147483647] = "[4,-8,0,2147483647]".toList ∧
    readSequence "[4,-8,0,2147483647]".toList = some [4, -8, 0, 2147483647] ∧
    vectorToJson [4, -8, 0, 2147483647] = vectorToJson [4, -8, 0, 2147483647] :=
  ⟨by decide, by decide,
    vectorToJson_roundtrip.2.1 [4, -8, 0, 2147483647] [4, -8, 0, 2147483647]
      (vectorToJson_roundtrip.1 _)⟩

theorem escapeByte_eq_image (c : Char) : escapeByte c = escapeImage c := by
  unfold escapeByte escapeImage
  split
  · rfl
  · rfl
  · rfl
  · rfl
  · rfl
  · rename_i h1 h2 h3 h4 h5
    rw [if_neg h1, if_neg h2, if_neg h3, if_neg h4, if_neg h5]

theorem foldl_escape (s : Str) :
    ∀ o : Str, s.foldl (fun o c => o ++ escapeByte c) o = o ++ (s.map escapeImage).flatten := by
  induction s with
  | nil => intro o; simp
  | cons c r ih =>
    intro o
    rw [List.foldl_cons, ih, escapeByte_eq_image]
    simp

theorem escapeJson_eq_flatten (s : Str) : escapeJson s = (s.map escapeImage).flatten := by
  rw [escapeJson, foldl_escape]; simp

theorem escapeJson_append (a b : Str) : escapeJson (a ++ b) = escapeJson a ++ escapeJson b := by
  simp [escapeJson_eq_flatten]

theorem escapeJson_plain (s : Str)
    (h : ∀ c ∈ s, c ≠ '"' ∧ c ≠ '\\' ∧ c ≠ '\n' ∧ c ≠ '\r' ∧ c ≠ '\t') : escapeJson s = s := by
  induction s with
  | nil => rfl
  | cons c r ih =>
    have hc := h c (by simp)
    have e : escapeJson (c :: r) = escapeJson [c] ++ escapeJson r := escapeJson_append [c] r
    rw [e, ih (fun d hd => h d (by simp [hd])), escapeJson_eq_flatten [c]]
    simp [escapeImage, hc.1, hc.2.1, hc.2.2.1, hc.2.2.2.1, hc.2.2.2.2]

/-- C7. `escapeJson s` is the concatenation, in order, of the images of the bytes of `s`, where
`"` maps to backslash-quote, backslash to two backslashes, newline to `\n`, carriage return to
`\r`, tab to `\t` and every other byte to itself; so it distributes over `++` and leaves a
string with none of the five bytes unchanged. -/
theorem escapeJson_spec :
    (∀ s : Str, escapeJson s = (s.map escapeImage).flatten) ∧
    (escapeImage '"' = ['\\', '"'] ∧ escapeImage '\\' = ['\\', '\\'] ∧
      escapeImage '\n' = ['\\', 'n'] ∧ escapeImage '\r' = ['\\', 'r'] ∧
      escapeImage '\t' = ['\\', 't'] ∧
      ∀ c : Char, c ≠ '"' → c ≠ '\\' → c ≠ '\n' → c ≠ '\r' → c ≠ '\t' → escapeImage c = [c]) ∧
    (∀ a b : Str, escapeJson (a ++ b) = escapeJson a ++ escapeJson b) ∧
    (∀ s : Str, (∀ c ∈ s, c ≠ '"' ∧ c ≠ '\\' ∧ c ≠ '\n' ∧ c ≠ '\r' ∧ c ≠ '\t') →
      escapeJson s = s) := by
  refine ⟨escapeJson_eq_flatten, ⟨rfl, rfl, rfl, rfl, rfl, ?_⟩, escapeJson_append,
    escapeJson_plain⟩
  intro c h1 h2 h3 h4 h5
  simp [escapeImage, h1, h2, h3, h4, h5]

theorem escapeJson_spec_witness :
    escapeJson "a\"b\\c\n\r\td".toList = "a\\\"b\\\\c\\n\\r\\td".toList ∧
    escapeJson "plain text".toList = "plain text".toList :=
  ⟨by decide, escapeJson_spec.2.2.2 "plain text".toList (by decide)⟩

theorem least_of_find (s pat : Str) (i : Nat) (h : find s pat 0 = some i) :
    ∀ P1 R1 : Str, s = P1 ++ pat ++ R1 → i ≤ P1.length := by
  rw [find_zero] at h
  obtain ⟨P2, R2, _, hj, hmin⟩ := findFrom_some pat _ 0 _ h
  intro P1 R1 e
  have := hmin P1 R1 e
  omega

theorem first_of_head_not_mem (c : Char) (pat v R : Str) (hv : c ∉ v) :
    ∀ P1 R1 : Str, v ++ (c :: pat) ++ R = P1 ++ (c :: pat) ++ R1 → v.length ≤ P1.length := by
  intro P1 R1 e
  by_contra hlt
  push_neg at hlt
  have h1 : (v ++ (c :: pat) ++ R)[P1.length]? = some c := by
    rw [e, List.append_assoc, List.getElem?_append_right (le_refl _)]; simp
  have h2 : (v ++ (c :: pat) ++ R)[P1.length]? = v[P1.length]? := by
    rw [List.append_assoc, List.getElem?_append_left hlt]
  rw [h2] at h1
  exact hv (List.getElem?_mem h1)

/-- C9.  The request below has no `Content-Length` header in its header block, yet the text
`Content-Length: 9` inside its JSON body is read as one: of the 41 bytes after the blank line
only the first 9 reach the dispatcher. -/
theorem frameBody_reads_body_text :
    find ("POST /game/create HTTP/1.1\r\nHost: h\r\n\r\n"
        ++ "\x7b\"game_name\":\"Content-Length: 9\",\r\n\"x\":1\x7d").toList "\r\n\r\n".toList 0
      = some "POST /game/create HTTP/1.1\r\nHost: h".toList.length ∧
    ¬ "Content-Length".toList <:+: "POST /game/create HTTP/1.1\r\nHost: h".toList ∧
    frameBody ("POST /game/create HTTP/1.1\r\nHost: h\r\n\r\n"
        ++ "\x7b\"game_name\":\"Content-Length: 9\",\r\n\"x\":1\x7d").toList
      = .ok "\x7b\"game_na".toList ∧
    "\x7b\"game_na".toList ≠ "\x7b\"game_name\":\"Content-Length: 9\",\r\n\"x\":1\x7d".toList := by
  decide

theorem frameBody_without_text (req : Str) (bp : Nat)
    (hblank : find req "\r\n\r\n".toList 0 = some bp)
    (h : ¬ "Content-Length:".toList <:+: req) :
    frameBody req = .ok (req.drop (bp + 4)) := by
  simp only [frameBody, hblank, find_none_of_absent req _ h]
  split <;> rfl

theorem find_eq_zero_iff (s pat : Str) : find s pat 0 = some 0 ↔ pat <+: s := by
  rw [find_zero]
  constructor
  · intro h
    obtain ⟨P, R, hs, hj, _⟩ := findFrom_some pat s 0 0 h
    have hP : P = [] := List.length_eq_zero.mp (by omega)
    subst hP
    exact ⟨R, by simpa using hs.symm⟩
  · rintro ⟨R, rfl⟩
    have := findFrom_of_first pat [] R 0 (fun P1 R1 _ => by simp)
    simpa using this

theorem findFrom_found (pat : Str) :
    ∀ (P R : Str) (k : Nat), ∃ j, findFrom pat (P ++ pat ++ R) k = some j
  | [], R, k => by
    have := findFrom_of_first pat [] R k (fun P1 R1 _ => by simp)
    exact ⟨_, this⟩
  | c :: P, R, k => by
    show ∃ j, findFrom pat (c :: (P ++ pat ++ R)) k = some j
    rw [findFrom_cons]
    split
    · exact ⟨k, rfl⟩
    · exact findFrom_found pat P R (k + 1)

theorem find_found (s pat : Str) (h : pat <:+: s) : ∃ j, find s pat 0 = some j := by
  obtain ⟨P, R, rfl⟩ := h
  rw [find_zero]
  exact findFrom_found pat P R 0

theorem statusLine_of_line (L R : Str) (h : '\r' ∉ L) :
    statusLine (L ++ "\r\n".toList ++ R) = L := by
  have hf := find_of_first L "\r\n".toList R (first_of_head_not_mem '\r' ['\n'] L R h)
  simp only [statusLine, hf]
  rw [List.append_assoc]
  exact List.take_left' rfl

theorem statusLine_jsonOk (X : Str) : statusLine (jsonOkHead ++ X) = "HTTP/1.1 200 OK".toList := by
  have e : jsonOkHead ++ X = "HTTP/1.1 200 OK".toList ++ "\r\n".toList
      ++ ("Content-Type: application/json\r\n".toList
        ++ "Access-Control-Allow-Origin: *\r\n".toList ++ "Connection: close\r\n".toList
        ++ "\r\n".toList ++ X) := by
    simp [jsonOkHead]
  rw [e]
  exact statusLine_of_line _ _ (by decide)

theorem statusLine_landingPage : statusLine landingPage = "HTTP/1.1 200 OK".toList := by
  have e : landingPage = "HTTP/1.1 200 OK".toList ++ "\r\n".toList
      ++ ("Content-Type: text/html; charset=utf-8\r\n".toList ++ "\r\n".toList
        ++ landingHtml) := by
    simp [landingPage]
  rw [e]
  exact statusLine_of_line _ _ (by decide)

theorem handleRequest_unrouted (stub : Backend) (m p body : Str)
    (h : ¬ (exactRoute m p ∨ cardRoute m p)) :
    handleRequest stub m p body = .ok notFoundResponse := by
  have hx : ¬ exactRoute m p := fun x => h (Or.inl x)
  have hc : ¬ cardRoute m p := fun x => h (Or.inr x)
  unfold handleRequest
  rw [if_neg (fun c => hx (Or.inl c))]
  rw [if_neg (fun c => hx (Or.inr ⟨c.1, Or.inl c.2⟩))]
  rw [if_neg (fun c => hx (Or.inr ⟨c.1, Or.inr (Or.inl c.2)⟩))]
  rw [if_neg (fun c => hx (Or.inr ⟨c.1, Or.inr (Or.inr (Or.inl c.2))⟩))]
  rw [if_neg (fun c => hx (Or.inr ⟨c.1, Or.inr (Or.inr (Or.inr (Or.inl c.2)))⟩))]
  rw [if_neg (fun c => hx (Or.inr ⟨c.1, Or.inr (Or.inr (Or.inr (Or.inr c.2)))⟩))]
  by_cases hg : m = "GET".toList ∧ find p "/game/card".toList 0 = some 0
  · rw [if_pos hg]
    have hn : find p "player_id=".toList 0 = none := by
      apply find_none_of_absent
      intro hi
      exact hc ⟨hg.1, (find_eq_zero_iff _ _).mp hg.2, hi⟩
    rw [hn]
  · rw [if_neg hg]

theorem handleRequest_routed (stub : Backend) (m p body : Str)
    (h : exactRoute m p ∨ cardRoute m p) :
    (∃ X, handleRequest stub m p body = .ok X ∧ statusLine X = "HTTP/1.1 200 OK".toList) ∨
    (∃ e, handleRequest stub m p body = .error e ∧ m = "POST".toList ∧ p = "/game/mark".toList ∧
      parseJsonInt body "number".toList = .error e) := by
  unfold handleRequest
  by_cases c1 : m = "GET".toList ∧ p = "/".toList
  · rw [if_pos c1]
    exact Or.inl ⟨_, rfl, statusLine_landingPage⟩
  rw [if_neg c1]
  by_cases c2 : m = "POST".toList ∧ p = "/game/create".toList
  · rw [if_pos c2]
    exact Or.inl ⟨_, rfl, statusLine_jsonOk _⟩
  rw [if_neg c2]
  by_cases c3 : m = "POST".toList ∧ p = "/game/register".toList
  · rw [if_pos c3]
    exact Or.inl ⟨_, rfl, statusLine_jsonOk _⟩
  rw [if_neg c3]
  by_cases c4 : m = "POST".toList ∧ p = "/game/draw".toList
  · rw [if_pos c4]
    exact Or.inl ⟨_, rfl, statusLine_jsonOk _⟩
  rw [if_neg c4]
  by_cases c5 : m = "POST".toList ∧ p = "/game/mark".toList
  · rw [if_pos c5]
    cases hp : parseJsonInt body "number".toList with
    | error e => exact Or.inr ⟨e, rfl, c5.1, c5.2, rfl⟩
    | ok n => exact Or.inl ⟨_, rfl, statusLine_jsonOk _⟩
  rw [if_neg c5]
  by_cases c6 : m = "POST".toList ∧ p = "/game/bingo".toList
  · rw [if_pos c6]
    exact Or.inl ⟨_, rfl, statusLine_jsonOk _⟩
  rw [if_neg c6]
  have hcard : cardRoute m p := by
    rcases h with h | h
    · exfalso
      rcases h with h | ⟨hm, h | h | h | h | h⟩
      · exact c1 h
      · exact c2 ⟨hm, h⟩
      · exact c3 ⟨hm, h⟩
      · exact c4 ⟨hm, h⟩
      · exact c5 ⟨hm, h⟩
      · exact c6 ⟨hm, h⟩
    · exact h
  obtain ⟨hm, hpre, hinf⟩ := hcard
  rw [if_pos ⟨hm, (find_eq_zero_iff _ _).mpr hpre⟩]
  obtain ⟨j, hj⟩ := find_found p _ hinf
  rw [hj]
  exact Or.inl ⟨_, rfl, statusLine_jsonOk _⟩

/-- C10, as stated, fails: `GET /game/card` is a `GET` whose path starts with `/game/card`, and
it is answered with the 404 response because the path holds no `player_id=`. -/
theorem handleRequest_routing_counterexample :
    ¬ (∀ (stub : Backend) (m p body : Str),
      ((∃ r, handleRequest stub m p body = .ok r ∧
          statusLine r = "HTTP/1.1 404 Not Found".toList ∧
          responseBody r = "\x7b\"error\":\"Endpoint not found\"\x7d".toList) ↔
        ¬ (exactRoute m p ∨ (m = "GET".toList ∧ "/game/card".toList <+: p)))) := by
  intro h
  have h1 := (h downBackend "GET".toList "/game/card".toList []).mp
    ⟨notFoundResponse, by decide, by decide, by decide⟩
  exact h1 (Or.inr ⟨rfl, by decide⟩)

/-- C10, amended.  The dispatcher answers with status line `404 Not Found` and body exactly
`{"error":"Endpoint not found"}` if and only if (method, path) is none of the exact routes and
is not a `GET` whose path starts with `/game/card` and contains `player_id=`; every routed
request is answered with status `200 OK`, where for `POST /game/mark` the `number` field of the
body is one `parseJsonInt` reads without raising. -/
theorem handleRequest_routing (stub : Backend) (m p body : Str) :
    ((∃ r, handleRequest stub m p body = .ok r ∧
        statusLine r = "HTTP/1.1 404 Not Found".toList ∧
        responseBody r = "\x7b\"error\":\"Endpoint not found\"\x7d".toList) ↔
      ¬ (exactRoute m p ∨ cardRoute m p)) ∧
    ((exactRoute m p ∨ cardRoute m p) →
      (m = "POST".toList → p = "/game/mark".toList →
        ∃ n, parseJsonInt body "number".toList = .ok n) →
      ∃ r, handleRequest stub m p body = .ok r ∧ statusLine r = "HTTP/1.1 200 OK".toList) := by
  constructor
  · constructor
    · rintro ⟨r, hr, hs, _⟩ hrouted
      rcases handleRequest_routed stub m p body hrouted with ⟨X, hX, hsX⟩ | ⟨e, he, _⟩
      · rw [hX] at hr
        have := Except.ok.inj hr
        subst this
        rw [hsX] at hs
        revert hs
        decide
      · rw [he] at hr
        cases hr
    · intro hn
      exact ⟨notFoundResponse, handleRequest_unrouted stub m p body hn, by decide, by decide⟩
  · intro hrouted hmark
    rcases handleRequest_routed stub m p body hrouted with h | ⟨e, _, hm, hp, hpe⟩
    · exact h
    · obtain ⟨n, hn⟩ := hmark hm hp
      rw [hn] at hpe
      cases hpe

theorem handleRequest_routing_witness :
    (∃ r, handleRequest downBackend "POST".toList "/game/mark".toList
        "\x7b\"game_id\":\"g-1\",\"player_id\":\"p-1\",\"number\":99\x7d".toList = .ok r ∧
      statusLine r = "HTTP/1.1 200 OK".toList) ∧
    (∃ r, handleRequest downBackend "GET".toList "/unknown/path".toList [] = .ok r ∧
      statusLine r = "HTTP/1.1 404 Not Found".toList ∧
      responseBody r = "\x7b\"error\":\"Endpoint not found\"\x7d".toList) :=
  ⟨(handleRequest_routing downBackend "POST".toList "/game/mark".toList
      "\x7b\"game_id\":\"g-1\",\"player_id\":\"p-1\",\"number\":99\x7d".toList).2
      (Or.inl (Or.inr ⟨rfl, by decide⟩)) (fun _ _ => ⟨99, by decide⟩),
    (handleRequest_routing downBackend "GET".toList "/unknown/path".toList []).1.mpr
      (by decide)⟩

/-! ## What each route answers -/

theorem handleRequest_create (stub : Backend) (body : Str) :
    handleRequest stub "POST".toList "/game/create".toList body
      = .ok (jsonOkHead ++ ("\x7b\"game_id\":\"".toList
        ++ escapeJson (BingoStub.CreateGame stub
          (if parseJsonString body "game_name".toList = [] then "Bingo Game".toList
            else parseJsonString body "game_name".toList))
        ++ "\",".toList ++ "\"success\":".toList
        ++ boolText (!(BingoStub.CreateGame stub
          (if parseJsonString body "game_name".toList = [] then "Bingo Game".toList
            else parseJsonString body "game_name".toList)).isEmpty) ++ "\x7d".toList)) := by
  rfl

theorem handleRequest_register (stub : Backend) (body : Str) :
    handleRequest stub "POST".toList "/game/register".toList body
      = .ok (jsonOkHead ++ ("\x7b\"player_id\":\"".toList
        ++ escapeJson (BingoStub.RegisterPlayer stub (parseJsonString body "game_id".toList)
          (parseJsonString body "player_name".toList)).player_id
        ++ "\",".toList ++ "\"card\":".toList
        ++ vectorToJson (BingoStub.RegisterPlayer stub (parseJsonString body "game_id".toList)
          (parseJsonString body "player_name".toList)).card
        ++ ",".toList ++ "\"success\":".toList
        ++ boolText (BingoStub.RegisterPlayer stub (parseJsonString body "game_id".toList)
          (parseJsonString body "player_name".toList)).success ++ "\x7d".toList)) := by
  rfl

theorem handleRequest_draw (stub : Backend) (body : Str) :
    handleRequest stub "POST".toList "/game/draw".toList body
      = .ok (jsonOkHead ++ ("\x7b\"number\":".toList
        ++ renderInt (BingoStub.DrawNumber stub (parseJsonString body "game_id".toList)).number
        ++ ",".toList ++ "\"success\":".toList
        ++ boolText (BingoStub.DrawNumber stub (parseJsonString body "game_id".toList)).success
        ++ "\x7d".toList)) := by
  rfl

theorem handleRequest_mark (stub : Backend) (body : Str) :
    handleRequest stub "POST".toList "/game/mark".toList body
      = match parseJsonInt body "number".toList with
        | .error e => .error e
        | .ok number =>
          .ok (jsonOkHead ++ ("\x7b\"success\":".toList
            ++ boolText (BingoStub.MarkNumber stub (parseJsonString body "game_id".toList)
              (parseJsonString body "player_id".toList) number) ++ "\x7d".toList)) := by
  rfl

theorem handleRequest_bingo (stub : Backend) (body : Str) :
    handleRequest stub "POST".toList "/game/bingo".toList body
      = .ok (jsonOkHead ++ ("\x7b\"bingo\":".toList
        ++ boolText (BingoStub.CheckBingo stub (parseJsonString body "game_id".toList)
          (parseJsonString body "player_id".toList)) ++ "\x7d".toList)) := by
  rfl

theorem copyCard_eq (c : List Int) : copyCard c = c := by
  have h : ∀ (l acc : List Int), l.foldl (fun card x => card ++ [x]) acc = acc ++ l := by
    intro l
    induction l with
    | nil => intro acc; simp
    | cons x r ih => intro acc; rw [List.foldl_cons, ih]; simp
  rw [copyCard, h]; rfl

theorem find_append_right (s pat X : Str) (i : Nat) (h : find s pat 0 = some i) :
    find (s ++ X) pat 0 = some i := by
  rw [find_zero] at h
  obtain ⟨P, R, hs, hi, hmin⟩ := findFrom_some pat s 0 i h
  have hi2 : i = P.length := by omega
  subst hs
  rw [hi2]
  have e : P ++ pat ++ R ++ X = P ++ pat ++ (R ++ X) := by simp
  rw [e]
  apply find_of_first
  intro P1 R1 h1
  by_contra hlt
  push_neg at hlt
  have p1 : (P1 ++ pat) <+: (P ++ pat ++ (R ++ X)) := ⟨R1, h1.symm⟩
  have p2 : (P ++ pat) <+: (P ++ pat ++ (R ++ X)) := ⟨R ++ X, rfl⟩
  have p3 : (P1 ++ pat) <+: (P ++ pat) :=
    List.prefix_of_prefix_length_le p1 p2 (by simp; omega)
  obtain ⟨R2, hR2⟩ := p3
  have := hmin P1 (R2 ++ R) (by rw [← hR2]; simp)
  omega

theorem responseBody_jsonOk (X : Str) : responseBody (jsonOkHead ++ X) = X := by
  have h : find jsonOkHead "\r\n\r\n".toList 0 = some 98 := by decide
  simp only [responseBody, find_append_right _ _ X _ h]
  exact List.drop_left' (by decide)

theorem headerBlock_jsonOk (X : Str) :
    headerBlock (jsonOkHead ++ X) = jsonOkHead.take 98 := by
  have h : find jsonOkHead "\r\n\r\n".toList 0 = some 98 := by decide
  simp only [headerBlock, find_append_right _ _ X _ h]
  rw [List.take_append_of_le_length (by decide)]

theorem RegisterPlayer_outcome (stub : Backend) (g n : Str) (ok : Bool)
    (resp : RegisterPlayerResponse) (h : stub.RegisterPlayer g n = (ok, resp)) :
    BingoStub.RegisterPlayer stub g n
      = if (ok && resp.success) = true then ⟨resp.player_id, resp.card_numbers, true⟩
        else ⟨[], [], false⟩ := by
  simp only [BingoStub.RegisterPlayer, h, copyCard_eq]

theorem DrawNumber_outcome (stub : Backend) (g : Str) (ok : Bool) (resp : DrawNumberResponse)
    (h : stub.DrawNumber g = (ok, resp)) :
    BingoStub.DrawNumber stub g
      = if (ok && resp.success) = true then ⟨resp.number, true⟩ else ⟨0, false⟩ := by
  simp only [BingoStub.DrawNumber, h]

theorem MarkNumber_outcome (stub : Backend) (g p : Str) (n : Int) (ok : Bool)
    (resp : MarkNumberResponse) (h : stub.MarkNumber g p n = (ok, resp)) :
    BingoStub.MarkNumber stub g p n = (ok && resp.success) := by
  simp only [BingoStub.MarkNumber, h]
  cases ok <;> cases resp.success <;> rfl

theorem CheckBingo_outcome (stub : Backend) (g p : Str) (ok : Bool)
    (resp : CheckBingoResponse) (h : stub.CheckBingo g p = (ok, resp)) :
    BingoStub.CheckBingo stub g p = (ok && resp.bingo) := by
  simp only [BingoStub.CheckBingo, h]
  cases ok <;> rfl

theorem CreateGame_outcome (stub : Backend) (name : Str) (ok : Bool)
    (resp : CreateGameResponse) (h : stub.CreateGame name = (ok, resp)) :
    BingoStub.CreateGame stub name = if ok = true then resp.game_id else [] := by
  simp only [BingoStub.CreateGame, h]

theorem GetCard_outcome (stub : Backend) (p : Str) (ok : Bool)
    (resp : GetCardResponse) (h : stub.GetCard p = (ok, resp)) :
    BingoStub.GetCard stub p = if ok = true then resp.card_numbers else [] := by
  simp only [BingoStub.GetCard, h, copyCard_eq]

/-- C11. The answer to an unmatched request has `Content-Type: application/json` in its header
block, but neither `Access-Control-Allow-Origin: *` nor `Connection: close`. -/
theorem notFound_lacks_headers :
    handleRequest downBackend "GET".toList "/unknown/path".toList [] = .ok notFoundResponse ∧
    "Content-Type: application/json".toList <:+: headerBlock notFoundResponse ∧
    ¬ "Access-Control-Allow-Origin: *".toList <:+: headerBlock notFoundResponse ∧
    ¬ "Connection: close".toList <:+: headerBlock notFoundResponse := by
  decide

set_option maxRecDepth 8000 in
theorem jsonOk_has_headers (X : Str) :
    "Content-Type: application/json".toList <:+: headerBlock (jsonOkHead ++ X) ∧
    "Access-Control-Allow-Origin: *".toList <:+: headerBlock (jsonOkHead ++ X) ∧
    "Connection: close".toList <:+: headerBlock (jsonOkHead ++ X) := by
  rw [headerBlock_jsonOk]
  decide

/-- C12. `POST /game/mark` with the body below gets no answer at all, whatever the backend
does: `parseJsonInt` raises on its `number` field before the backend is called, so no JSON body
ending in `"success":false}` is produced. -/
theorem mark_raises_before_call :
    ∀ stub : Backend, handleRequest stub "POST".toList "/game/mark".toList
      "\x7b\"game_id\":\"g-1\",\"player_id\":\"p-1\",\"number\":-\x7d".toList
        = .error .invalid_argument := by
  intro stub
  rw [handleRequest_mark]
  have h : parseJsonInt "\x7b\"game_id\":\"g-1\",\"player_id\":\"p-1\",\"number\":-\x7d".toList
      "number".toList = .error .invalid_argument := by decide
  rw [h]

theorem register_answer (stub : Backend) (body : Str) (ok : Bool) (resp : RegisterPlayerResponse)
    (h : stub.RegisterPlayer (parseJsonString body "game_id".toList)
      (parseJsonString body "player_name".toList) = (ok, resp)) :
    handleRequest stub "POST".toList "/game/register".toList body
      = .ok (jsonOkHead ++
          if (ok && resp.success) = true then
            "\x7b\"player_id\":\"".toList ++ escapeJson resp.player_id ++ "\",\"card\":".toList
              ++ vectorToJson resp.card_numbers ++ ",\"success\":true\x7d".toList
          else "\x7b\"player_id\":\"\",\"card\":[],\"success\":false\x7d".toList) := by
  rw [handleRequest_register, RegisterPlayer_outcome stub _ _ ok resp h]
  by_cases c : (ok && resp.success) = true
  · rw [if_pos c, if_pos c]
    simp [boolText]
  · rw [if_neg c, if_neg c]
    rfl

theorem draw_answer (stub : Backend) (body : Str) (ok : Bool) (resp : DrawNumberResponse)
    (h : stub.DrawNumber (parseJsonString body "game_id".toList) = (ok, resp)) :
    handleRequest stub "POST".toList "/game/draw".toList body
      = .ok (jsonOkHead ++
          if (ok && resp.success) = true then
            "\x7b\"number\":".toList ++ renderInt resp.number ++ ",\"success\":true\x7d".toList
          else "\x7b\"number\":0,\"success\":false\x7d".toList) := by
  rw [handleRequest_draw, DrawNumber_outcome stub _ ok resp h]
  by_cases c : (ok && resp.success) = true
  · rw [if_pos c, if_pos c]
    simp [boolText]
  · rw [if_neg c, if_neg c]
    rfl

theorem mark_answer (stub : Backend) (body : Str) (n : Int) (ok : Bool)
    (resp : MarkNumberResponse) (hn : parseJsonInt body "number".toList = .ok n)
    (h : stub.MarkNumber (parseJsonString body "game_id".toList)
      (parseJsonString body "player_id".toList) n = (ok, resp)) :
    handleRequest stub "POST".toList "/game/mark".toList body
      = .ok (jsonOkHead ++
          if (ok && resp.success) = true then "\x7b\"success\":true\x7d".toList
          else "\x7b\"success\":false\x7d".toList) := by
  rw [handleRequest_mark, hn]
  simp only [MarkNumber_outcome stub _ _ n ok resp h]
  by_cases c : (ok && resp.success) = true
  · rw [if_pos c, c]
    rfl
  · rw [if_neg c, Bool.eq_false_iff.mpr c]
    rfl

theorem and_false_of (ok s : Bool) (h : ok = false ∨ s = false) : ¬ (ok && s) = true := by
  rcases h with h | h <;> simp [h]

/-- What the three handlers answer once the backend call is made and fails, at transport level
or with `success = false`: the JSON head with status 200 followed by
`{"player_id":"","card":[],"success":false}`, `{"number":0,"success":false}` or
`{"success":false}`, whatever payload the response message carries.  `/game/mark` makes the
call only with a number `parseJsonInt` has read from the body; two backends that fail, each in
its own way, get the same outcome from `/game/mark` for every body. -/
theorem failure_answer_when_called (stub : Backend) (body : Str) :
    ((stub.RegisterPlayer (parseJsonString body "game_id".toList)
          (parseJsonString body "player_name".toList)).1 = false ∨
        (stub.RegisterPlayer (parseJsonString body "game_id".toList)
          (parseJsonString body "player_name".toList)).2.success = false →
      handleRequest stub "POST".toList "/game/register".toList body
        = .ok (jsonOkHead ++ "\x7b\"player_id\":\"\",\"card\":[],\"success\":false\x7d".toList)) ∧
    ((stub.DrawNumber (parseJsonString body "game_id".toList)).1 = false ∨
        (stub.DrawNumber (parseJsonString body "game_id".toList)).2.success = false →
      handleRequest stub "POST".toList "/game/draw".toList body
        = .ok (jsonOkHead ++ "\x7b\"number\":0,\"success\":false\x7d".toList)) ∧
    (∀ n : Int, parseJsonInt body "number".toList = .ok n →
      (stub.MarkNumber (parseJsonString body "game_id".toList)
          (parseJsonString body "player_id".toList) n).1 = false ∨
        (stub.MarkNumber (parseJsonString body "game_id".toList)
          (parseJsonString body "player_id".toList) n).2.success = false →
      handleRequest stub "POST".toList "/game/mark".toList body
        = .ok (jsonOkHead ++ "\x7b\"success\":false\x7d".toList)) ∧
    (∀ X : Str, statusLine (jsonOkHead ++ X) = "HTTP/1.1 200 OK".toList ∧
      responseBody (jsonOkHead ++ X) = X) ∧
    (∀ other : Backend,
      (∀ g p n, (stub.MarkNumber g p n).1 = false ∨ (stub.MarkNumber g p n).2.success = false) →
      (∀ g p n, (other.MarkNumber g p n).1 = false ∨ (other.MarkNumber g p n).2.success = false) →
      handleRequest stub "POST".toList "/game/mark".toList body
        = handleRequest other "POST".toList "/game/mark".toList body) := by
  refine ⟨fun h => ?_, fun h => ?_, fun n hn h => ?_, fun X =>
    ⟨statusLine_jsonOk X, responseBody_jsonOk X⟩, fun other h1 h2 => ?_⟩
  · rw [register_answer stub body _ _ rfl, if_neg (and_false_of _ _ h)]
  · rw [draw_answer stub body _ _ rfl, if_neg (and_false_of _ _ h)]
  · rw [mark_answer stub body n _ _ hn rfl, if_neg (and_false_of _ _ h)]
  · cases hp : parseJsonInt body "number".toList with
    | error e => rw [handleRequest_mark, handleRequest_mark, hp]
    | ok n =>
      rw [mark_answer stub body n _ _ hp rfl, if_neg (and_false_of _ _ (h1 _ _ _)),
        mark_answer other body n _ _ hp rfl, if_neg (and_false_of _ _ (h2 _ _ _))]

theorem failure_answer_when_called_example :
    handleRequest refusingBackend "POST".toList "/game/register".toList
        "\x7b\"game_id\":\"g-1\",\"player_name\":\"Alice\"\x7d".toList
      = .ok (jsonOkHead ++ "\x7b\"player_id\":\"\",\"card\":[],\"success\":false\x7d".toList) ∧
    handleRequest downBackend "POST".toList "/game/draw".toList
        "\x7b\"game_id\":\"g-1\"\x7d".toList
      = .ok (jsonOkHead ++ "\x7b\"number\":0,\"success\":false\x7d".toList) ∧
    handleRequest refusingBackend "POST".toList "/game/mark".toList
        "\x7b\"game_id\":\"g-1\",\"player_id\":\"p-1\",\"number\":99\x7d".toList
      = .ok (jsonOkHead ++ "\x7b\"success\":false\x7d".toList) :=
  ⟨(failure_answer_when_called refusingBackend _).1 (Or.inr rfl),
    (failure_answer_when_called downBackend _).2.1 (Or.inl rfl),
    (failure_answer_when_called refusingBackend _).2.2.1 99 (by decide) (Or.inr rfl)⟩

/-- C13. With a backend that is down (every call fails at transport level), `POST /game/mark`
with the body below is not answered with the fixed `{"success":false}` and status 200: it is
not answered at all, because `parseJsonInt` raises on the `number` field before the backend is
called.  So it is not true that for every body a failing backend gives the fixed answer. -/
theorem failure_answer_missing :
    (∀ g p n, (downBackend.MarkNumber g p n).1 = false) ∧
    handleRequest downBackend "POST".toList "/game/mark".toList
        "\x7b\"game_id\":\"g\",\"player_id\":\"p\",\"number\":-\x7d".toList
      = .error .invalid_argument ∧
    ¬ (∀ (stub : Backend) (body : Str),
      (∀ g p n, (stub.MarkNumber g p n).1 = false ∨ (stub.MarkNumber g p n).2.success = false) →
      handleRequest stub "POST".toList "/game/mark".toList body
        = .ok (jsonOkHead ++ "\x7b\"success\":false\x7d".toList)) := by
  have h : handleRequest downBackend "POST".toList "/game/mark".toList
      "\x7b\"game_id\":\"g\",\"player_id\":\"p\",\"number\":-\x7d".toList
        = .error .invalid_argument := by
    rw [handleRequest_mark]
    have hp : parseJsonInt "\x7b\"game_id\":\"g\",\"player_id\":\"p\",\"number\":-\x7d".toList
        "number".toList = .error .invalid_argument := by decide
    rw [hp]
  refine ⟨fun _ _ _ => rfl, h, fun hall => ?_⟩
  have h1 := hall downBackend "\x7b\"game_id\":\"g\",\"player_id\":\"p\",\"number\":-\x7d".toList
    (fun _ _ _ => Or.inl rfl)
  rw [h] at h1
  cases h1

/-- C14. When the backend call of `POST /game/register` succeeds at transport level with
`success = true`, player id `p` and card numbers `c`, the body of the answer is exactly
`{"player_id":"` + `escapeJson p` + `","card":` + `vectorToJson c` + `,"success":true}`, the card
in the order the backend gave it; the call is made with `parseJsonString body "game_id"` and
`parseJsonString body "player_name"` (first part: the outcome of the call at these two
arguments decides the answer; second part: a backend that echoes its arguments gets them
back). -/
theorem register_success_body (body : Str) :
    (∀ (stub : Backend) (p : Str) (c : List Int),
      stub.RegisterPlayer (parseJsonString body "game_id".toList)
        (parseJsonString body "player_name".toList) = (true, ⟨true, p, c⟩) →
      ∃ r, handleRequest stub "POST".toList "/game/register".toList body = .ok r ∧
        responseBody r = "\x7b\"player_id\":\"".toList ++ escapeJson p ++ "\",\"card\":".toList
          ++ vectorToJson c ++ ",\"success\":true\x7d".toList ∧
        vectorToJson c = ['['] ++ [','].intercalate (c.map renderInt) ++ [']']) ∧
    handleRequest echoBackend "POST".toList "/game/register".toList body
      = .ok (jsonOkHead ++ ("\x7b\"player_id\":\"".toList
        ++ escapeJson (parseJsonString body "game_id".toList
          ++ '|' :: parseJsonString body "player_name".toList)
        ++ "\",\"card\":[],\"success\":true\x7d".toList)) := by
  constructor
  · intro stub p c h
    refine ⟨_, register_answer stub body true ⟨true, p, c⟩ h, ?_, vectorToJson_eq_intercalate c⟩
    rw [responseBody_jsonOk]
    rfl
  · rw [register_answer echoBackend body true _ rfl]
    simp
    rfl

theorem register_success_body_witness :
    ∃ r, handleRequest acceptingBackend "POST".toList "/game/register".toList
        "\x7b\"game_id\":\"g-1\",\"player_name\":\"Alice\"\x7d".toList = .ok r ∧
      responseBody r = "\x7b\"player_id\":\"".toList ++ escapeJson "p-1".toList
        ++ "\",\"card\":".toList ++ vectorToJson [4, 8, 15, 16, 23]
        ++ ",\"success\":true\x7d".toList ∧
      vectorToJson [4, 8, 15, 16, 23]
        = ['['] ++ [','].intercalate ([4, 8, 15, 16, 23].map renderInt) ++ [']'] :=
  (register_success_body _).1 acceptingBackend "p-1".toList [4, 8, 15, 16, 23] rfl

theorem create_answer (stub : Backend) (body : Str) (ok : Bool) (resp : CreateGameResponse)
    (h : stub.CreateGame (if parseJsonString body "game_name".toList = [] then
      "Bingo Game".toList else parseJsonString body "game_name".toList) = (ok, resp)) :
    handleRequest stub "POST".toList "/game/create".toList body
      = .ok (jsonOkHead ++ ("\x7b\"game_id\":\"".toList
        ++ escapeJson (if ok = true then resp.game_id else [])
        ++ "\",\"success\":".toList
        ++ boolText (decide (ok = true ∧ resp.game_id ≠ [])) ++ "\x7d".toList)) := by
  rw [handleRequest_create, CreateGame_outcome stub _ ok resp h]
  have hb : (!(if ok = true then resp.game_id else []).isEmpty)
      = decide (ok = true ∧ resp.game_id ≠ []) := by
    cases ok
    · simp
    · cases hg : resp.game_id <;> simp
  rw [hb]
  simp

/-- C15. For `POST /game/create` the body of the answer is exactly `{"game_id":"` +
`escapeJson id` + `","success":` + `b` + `}`, where `id` is the game id of the backend when the
transport call succeeded and empty otherwise, and `b` is `true` exactly when the transport call
succeeded and the returned id is not empty. -/
theorem create_body (stub : Backend) (body : Str) (ok : Bool) (resp : CreateGameResponse)
    (h : stub.CreateGame (if parseJsonString body "game_name".toList = [] then
      "Bingo Game".toList else parseJsonString body "game_name".toList) = (ok, resp)) :
    ∃ r, handleRequest stub "POST".toList "/game/create".toList body = .ok r ∧
      responseBody r = "\x7b\"game_id\":\"".toList
        ++ escapeJson (if ok = true then resp.game_id else [])
        ++ "\",\"success\":".toList
        ++ (if ok = true ∧ resp.game_id ≠ [] then "true".toList else "false".toList)
        ++ "\x7d".toList := by
  refine ⟨_, create_answer stub body ok resp h, ?_⟩
  rw [responseBody_jsonOk]
  by_cases c : ok = true ∧ resp.game_id ≠ []
  · simp [boolText, c]
  · simp only [boolText, c, decide_False, if_false]
    simp

theorem create_body_witness :
    (∃ r, handleRequest acceptingBackend "POST".toList "/game/create".toList
        "\x7b\"game_name\":\"Test\"\x7d".toList = .ok r ∧
      responseBody r = "\x7b\"game_id\":\"".toList
        ++ escapeJson (if true = true then "g-1".toList else [])
        ++ "\",\"success\":".toList
        ++ (if true = true ∧ "g-1".toList ≠ [] then "true".toList else "false".toList)
        ++ "\x7d".toList) ∧
    ("\x7b\"game_id\":\"".toList ++ escapeJson (if true = true then "g-1".toList else [])
        ++ "\",\"success\":".toList
        ++ (if true = true ∧ "g-1".toList ≠ [] then "true".toList else "false".toList)
        ++ "\x7d".toList) = "\x7b\"game_id\":\"g-1\",\"success\":true\x7d".toList :=
  ⟨create_body acceptingBackend _ true ⟨"g-1".toList⟩ rfl, by decide⟩

/-- C19. For `POST /game/bingo`, whatever the body, the body of the answer is `{"bingo":true}`
exactly when the transport call succeeded and the `bingo` field of the response is true, and
`{"bingo":false}` otherwise; nothing else of the response is read. -/
theorem bingo_body (stub : Backend) (body : Str) (ok : Bool) (resp : CheckBingoResponse)
    (h : stub.CheckBingo (parseJsonString body "game_id".toList)
      (parseJsonString body "player_id".toList) = (ok, resp)) :
    ∃ r, handleRequest stub "POST".toList "/game/bingo".toList body = .ok r ∧
      (responseBody r = "\x7b\"bingo\":true\x7d".toList ↔ (ok = true ∧ resp.bingo = true)) ∧
      (¬ (ok = true ∧ resp.bingo = true) → responseBody r = "\x7b\"bingo\":false\x7d".toList) := by
  refine ⟨_, handleRequest_bingo stub body, ?_, ?_⟩
  · rw [responseBody_jsonOk, CheckBingo_outcome stub _ _ ok resp h]
    cases ok <;> cases resp.bingo <;> decide
  · rw [responseBody_jsonOk, CheckBingo_outcome stub _ _ ok resp h]
    cases ok <;> cases resp.bingo <;> decide

theorem bingo_body_witness :
    ∃ r, handleRequest acceptingBackend "POST".toList "/game/bingo".toList
        "\x7b\"game_id\":\"g-1\",\"player_id\":\"p-1\"\x7d".toList = .ok r ∧
      (responseBody r = "\x7b\"bingo\":true\x7d".toList ↔ (true = true ∧ true = true)) ∧
      (¬ (true = true ∧ true = true) → responseBody r = "\x7b\"bingo\":false\x7d".toList) :=
  bingo_body acceptingBackend _ true ⟨true⟩ rfl

theorem handleRequest_card (stub : Backend) (A id body : Str)
    (hpre : "/game/card".toList <+: A ++ "player_id=".toList ++ id)
    (hfirst : ∀ P1 R1 : Str, A ++ "player_id=".toList ++ id = P1 ++ "player_id=".toList ++ R1 →
      A.length ≤ P1.length) :
    handleRequest stub "GET".toList (A ++ "player_id=".toList ++ id) body
      = .ok (jsonOkHead ++ ("\x7b\"player_id\":\"".toList ++ escapeJson id ++ "\",".toList
        ++ "\"card\":".toList ++ vectorToJson (BingoStub.GetCard stub id) ++ "\x7d".toList)) := by
  have hroot : ¬ ("GET".toList = "GET".toList ∧ A ++ "player_id=".toList ++ id = "/".toList) := by
    rintro ⟨_, e⟩
    obtain ⟨t, ht⟩ := hpre
    rw [e] at ht
    have := congrArg List.length ht
    simp at this
  have hpost : ∀ q : Str,
      ¬ ("GET".toList = "POST".toList ∧ A ++ "player_id=".toList ++ id = q) :=
    fun q c => absurd c.1 (by decide)
  have hfind := find_of_first A "player_id=".toList id hfirst
  have hdrop : (A ++ "player_id=".toList ++ id).drop (A.length + 10) = id :=
    List.drop_left' (by rw [List.length_append]; rfl)
  unfold handleRequest
  rw [if_neg hroot, if_neg (hpost _), if_neg (hpost _), if_neg (hpost _), if_neg (hpost _),
    if_neg (hpost _), if_pos ⟨rfl, (find_eq_zero_iff _ _).mpr hpre⟩, hfind]
  simp only [hdrop]

/-- C17. For a `GET` whose path starts with `/game/card` and holds `player_id=`, the player id
sent to the validation backend is the part of the path after the first `player_id=` up to the
end of the path (an `&`-separated suffix included), and the answer has status 200 and the body
`{"player_id":"` + `escapeJson id` + `","card":` + `vectorToJson card` + `}`, where `card` is
the card of the backend in its order, or empty when the transport call failed. -/
theorem card_answer (stub : Backend) (A id body : Str) (ok : Bool) (resp : GetCardResponse)
    (hpre : "/game/card".toList <+: A ++ "player_id=".toList ++ id)
    (hfirst : ∀ P1 R1 : Str, A ++ "player_id=".toList ++ id = P1 ++ "player_id=".toList ++ R1 →
      A.length ≤ P1.length)
    (h : stub.GetCard id = (ok, resp)) :
    ∃ r, handleRequest stub "GET".toList (A ++ "player_id=".toList ++ id) body = .ok r ∧
      statusLine r = "HTTP/1.1 200 OK".toList ∧
      responseBody r = "\x7b\"player_id\":\"".toList ++ escapeJson id ++ "\",\"card\":".toList
        ++ vectorToJson (if ok = true then resp.card_numbers else []) ++ "\x7d".toList := by
  refine ⟨_, handleRequest_card stub A id body hpre hfirst, statusLine_jsonOk _, ?_⟩
  rw [responseBody_jsonOk, GetCard_outcome stub id ok resp h]
  simp

theorem card_answer_witness :
    ∃ r, handleRequest acceptingBackend "GET".toList
        ("/game/card?".toList ++ "player_id=".toList ++ "P1&x=player_id=2".toList) [] = .ok r ∧
      statusLine r = "HTTP/1.1 200 OK".toList ∧
      responseBody r = "\x7b\"player_id\":\"".toList ++ escapeJson "P1&x=player_id=2".toList
        ++ "\",\"card\":".toList
        ++ vectorToJson (if true = true then [4, 8, 15, 16, 23] else []) ++ "\x7d".toList :=
  card_answer acceptingBackend "/game/card?".toList "P1&x=player_id=2".toList [] true
    ⟨[4, 8, 15, 16, 23]⟩ (by decide) (least_of_find _ _ _ (by decide)) rfl

/-- C18. The framer raises on a bad `Content-Length` value: with an empty value, a value of
white space only, or a value that is not a number `std::stoul` throws `invalid_argument`, with
a value of `2^64` it throws `out_of_range`; nothing catches it, so the request gets no answer
(last part) and the process ends. -/
theorem frameBody_raises_on_bad_length :
    frameBody "POST /game/create HTTP/1.1\r\nContent-Length: \r\n\r\n\x7b\x7d".toList
      = .error .invalid_argument ∧
    frameBody "POST /game/create HTTP/1.1\r\nContent-Length:  \t \r\n\r\n\x7b\x7d".toList
      = .error .invalid_argument ∧
    frameBody "POST /game/create HTTP/1.1\r\nContent-Length: abc\r\n\r\n\x7b\x7d".toList
      = .error .invalid_argument ∧
    frameBody
        "POST /game/create HTTP/1.1\r\nContent-Length: 18446744073709551616\r\n\r\n\x7b\x7d".toList
      = .error .out_of_range ∧
    (∀ stub : Backend,
      serveRequest stub "POST /game/create HTTP/1.1\r\nContent-Length: abc\r\n\r\n\x7b\x7d".toList
        = .error .invalid_argument) := by
  refine ⟨by decide, by decide, by decide, by decide, fun stub => ?_⟩
  have h : frameBody "POST /game/create HTTP/1.1\r\nContent-Length: abc\r\n\r\n\x7b\x7d".toList
      = .error .invalid_argument := by decide
  simp only [serveRequest, h]

theorem find_from_none (s pat : Str) (k : Nat) (h : ¬ pat <:+: s.drop k) : find s pat k = none := by
  unfold find
  split
  · rfl
  · exact findFrom_none_of_absent pat _ k h

theorem parseJsonString_empty_of_malformed (P key S T : Str)
    (hfirst : ∀ P1 R1 : Str,
      P ++ (['"'] ++ key ++ ['"']) ++ (S ++ T) = P1 ++ (['"'] ++ key ++ ['"']) ++ R1 →
      P.length ≤ P1.length)
    (hS : ∀ c ∈ S, c = ' ' ∨ c = ':')
    (hT : T = [] ∨ (∃ c U, T = c :: U ∧ c ≠ '"' ∧ c ≠ ' ' ∧ c ≠ ':') ∨
      (∃ U, T = '"' :: U ∧ '"' ∉ U)) :
    parseJsonString (P ++ (['"'] ++ key ++ ['"']) ++ (S ++ T)) key = [] := by
  set Q : Str := ['"'] ++ key ++ ['"'] with hQ
  have hfind : find (P ++ Q ++ (S ++ T)) Q 0 = some P.length := find_of_first P Q (S ++ T) hfirst
  have hdrop : (P ++ Q ++ (S ++ T)).drop (P.length + Q.length) = S ++ T :=
    List.drop_left' (by simp)
  have hhead : ∀ c ∈ T.head?, (fun c => c == ' ' || c == ':') c = false := by
    intro c hc
    rcases hT with h | ⟨d, U, h, h1, h2, h3⟩ | ⟨U, h, _⟩
    · rw [h] at hc; simp at hc
    · rw [h] at hc
      simp at hc
      subst hc
      simp [h2, h3]
    · rw [h] at hc
      simp at hc
      subst hc
      decide
  have hskip : skipLoop (fun c => c == ' ' || c == ':') (S ++ T) (P.length + Q.length)
      = P.length + Q.length + S.length :=
    skipLoop_run _ S T _ (fun c hc => by rcases hS c hc with h | h <;> simp [h]) hhead
  have hre : P ++ Q ++ (S ++ T) = (P ++ Q ++ S) ++ T := by simp
  have hlenPQS : (P ++ Q ++ S).length = P.length + Q.length + S.length := by
    simp [Nat.add_assoc]
  simp only [parseJsonString]
  rw [← hQ, hfind]
  simp only [hdrop, hskip]
  rcases hT with h | ⟨d, U, h, h1, _, _⟩ | ⟨U, h, hU⟩
  · subst h
    rw [if_pos (Or.inl (by simp; omega))]
  · have hget : (P ++ Q ++ (S ++ T))[P.length + Q.length + S.length]? = some d := by
      rw [hre, List.getElem?_append_right (by omega), hlenPQS, Nat.sub_self, h]
      exact List.getElem?_cons_zero
    rw [if_pos (Or.inr (by rw [hget]; simpa using h1))]
  · have hget : (P ++ Q ++ (S ++ T))[P.length + Q.length + S.length]? = some '"' := by
      rw [hre, List.getElem?_append_right (by omega), hlenPQS, Nat.sub_self, h]
      exact List.getElem?_cons_zero
    have hlen : ¬ (P ++ Q ++ (S ++ T)).length ≤ P.length + Q.length + S.length := by
      rw [hre, List.length_append, hlenPQS, h]
      simp
    have hd2 : (P ++ Q ++ (S ++ T)).drop (P.length + Q.length + S.length + 1) = U := by
      have : P ++ Q ++ (S ++ T) = (P ++ Q ++ S ++ ['"']) ++ U := by rw [h]; simp
      rw [this]
      exact List.drop_left' (by simp [Nat.add_assoc])
    have hnone : find (P ++ Q ++ (S ++ T)) ['"'] (P.length + Q.length + S.length + 1) = none := by
      apply find_from_none
      rw [hd2]
      rintro ⟨a, b, e⟩
      exact hU (by rw [← e]; simp)
    rw [if_neg (by rw [hget]; simpa using hlen), hnone]

/-- C20. `parseJsonString` returns the empty string whenever the first occurrence of the key
wrapped in double quotes is malformed: after the spaces and colons `S` that follow it the body
ends, or the next byte is not a double quote, or it is a double quote that is never closed;
what comes later in the body, a well-formed occurrence of the key included, changes nothing. -/
theorem parseJsonString_malformed (P key S T : Str)
    (hfirst : ∀ P1 R1 : Str,
      P ++ (['"'] ++ key ++ ['"']) ++ (S ++ T) = P1 ++ (['"'] ++ key ++ ['"']) ++ R1 →
      P.length ≤ P1.length)
    (hS : ∀ c ∈ S, c = ' ' ∨ c = ':')
    (hT : T = [] ∨ (∃ c U, T = c :: U ∧ c ≠ '"' ∧ c ≠ ' ' ∧ c ≠ ':') ∨
      (∃ U, T = '"' :: U ∧ '"' ∉ U)) :
    parseJsonString (P ++ (['"'] ++ key ++ ['"']) ++ (S ++ T)) key = [] :=
  parseJsonString_empty_of_malformed P key S T hfirst hS hT

theorem parseJsonString_malformed_witness :
    ("\x7b".toList ++ (['"'] ++ "a".toList ++ ['"']) ++ (":".toList ++ "1,\"a\":\"x\"\x7d".toList)
      = "\x7b\"a\":1,\"a\":\"x\"\x7d".toList) ∧
    parseJsonString ("\x7b".toList ++ (['"'] ++ "a".toList ++ ['"'])
      ++ (":".toList ++ "1,\"a\":\"x\"\x7d".toList)) "a".toList = [] ∧
    parseJsonString ("\x7b".toList ++ (['"'] ++ "a".toList ++ ['"'])
      ++ (": ".toList ++ "\"never closed".toList)) "a".toList = [] :=
  ⟨by decide,
    parseJsonString_malformed "\x7b".toList "a".toList ":".toList "1,\"a\":\"x\"\x7d".toList
      (least_of_find _ _ _ (by decide)) (by decide)
      (Or.inr (Or.inl ⟨'1', ",\"a\":\"x\"\x7d".toList, rfl, by decide, by decide, by decide⟩)),
    parseJsonString_malformed "\x7b".toList "a".toList ": ".toList "\"never closed".toList
      (least_of_find _ _ _ (by decide)) (by decide)
      (Or.inr (Or.inr ⟨"never closed".toList, rfl, by decide⟩))⟩

/-! ## Escaping can be undone -/

theorem unescapeJson_plain (c : Char) (t : Str) (h : c ≠ '\\') :
    unescapeJson (c :: t) = c :: unescapeJson t := by
  cases t with
  | nil => rfl
  | cons d r => rw [unescapeJson, if_neg h]

theorem unescapeJson_pair (d : Char) (t : Str) :
    unescapeJson ('\\' :: d :: t) = unescapeByte d :: unescapeJson t := by
  rw [unescapeJson, if_pos rfl]

theorem escapeJson_cons (c : Char) (s : Str) :
    escapeJson (c :: s) = escapeImage c ++ escapeJson s := by
  simp [escapeJson_eq_flatten]

theorem unescapeJson_image (c : Char) (t : Str) :
    unescapeJson (escapeImage c ++ t) = c :: unescapeJson t := by
  unfold escapeImage
  split
  · rename_i h; subst h; exact unescapeJson_pair _ _
  split
  · rename_i h; subst h; exact unescapeJson_pair _ _
  split
  · rename_i h; subst h; exact unescapeJson_pair _ _
  split
  · rename_i h; subst h; exact unescapeJson_pair _ _
  split
  · rename_i h; subst h; exact unescapeJson_pair _ _
  · rename_i h1 h2 h3 h4 h5
    exact unescapeJson_plain c t h2

theorem unescapeJson_escapeJson (s : Str) : unescapeJson (escapeJson s) = s := by
  induction s with
  | nil => rfl
  | cons c r ih => rw [escapeJson_cons, unescapeJson_image, ih]

/-- C21. `escapeJson` can be undone: `unescapeJson` maps `escapeJson s` back to `s` for every
string `s`, so two different strings never have the same escaped form. -/
theorem escapeJson_injective :
    (∀ s : Str, unescapeJson (escapeJson s) = s) ∧
    (∀ a b : Str, escapeJson a = escapeJson b → a = b) := by
  refine ⟨unescapeJson_escapeJson, fun a b h => ?_⟩
  have h1 := unescapeJson_escapeJson a
  rw [h, unescapeJson_escapeJson] at h1
  exact h1.symm

theorem escapeJson_injective_witness :
    escapeJson "a\\n\n\"q\"\t\\".toList = "a\\\\n\\n\\\"q\\\"\\t\\\\".toList ∧
    unescapeJson (escapeJson "a\\n\n\"q\"\t\\".toList) = "a\\n\n\"q\"\t\\".toList ∧
    (escapeJson "\n".toList = escapeJson "\\n".toList → "\n".toList = "\\n".toList) :=
  ⟨by decide, escapeJson_injective.1 _, escapeJson_injective.2 _ _⟩

/-! ## What `parseJsonString` returns -/

theorem substr_of_find_quote (json : Str) (k e : Nat) (h : find json ['"'] k = some e) :
    '"' ∉ substr json k (e - k) ∧ substr json k (e - k) <:+: json := by
  unfold find at h
  split at h
  · cases h
  · obtain ⟨P, R, hs, he, hmin⟩ := findFrom_some ['"'] (json.drop k) k e h
    have hsub : substr json k (e - k) = P := by
      rw [substr, hs, he, Nat.add_sub_cancel_left, List.append_assoc]
      exact List.take_left' rfl
    rw [hsub]
    constructor
    · intro hmem
      obtain ⟨P1, P2, hP⟩ := List.append_of_mem hmem
      have := hmin P1 (P2 ++ ['"'] ++ R) (by rw [hs, hP]; simp)
      rw [hP] at this
      simp at this
    · refine ⟨json.take k, ['"'] ++ R, ?_⟩
      have : json = json.take k ++ json.drop k := (List.take_append_drop k json).symm
      rw [hs] at this
      rw [List.append_assoc] at this
      rw [List.append_assoc]
      exact this.symm

theorem parseJsonString_result (body key : Str) :
    '"' ∉ parseJsonString body key ∧ parseJsonString body key <:+: body := by
  have hnil : '"' ∉ ([] : Str) ∧ ([] : Str) <:+: body := ⟨by simp, List.nil_infix⟩
  unfold parseJsonString
  simp only []
  split
  · exact hnil
  · split
    · exact hnil
    · split
      · exact hnil
      · rename_i e he
        exact substr_of_find_quote body _ e he

theorem game_name_quote_free (body : Str) :
    '"' ∉ (if parseJsonString body "game_name".toList = [] then "Bingo Game".toList
      else parseJsonString body "game_name".toList) := by
  split
  · decide
  · exact (parseJsonString_result body _).1

theorem handleRequest_post_agree (s1 s2 : Backend) (path body : Str)
    (hc : ∀ n : Str, '"' ∉ n → s1.CreateGame n = s2.CreateGame n)
    (hr : ∀ g n : Str, '"' ∉ g → '"' ∉ n → s1.RegisterPlayer g n = s2.RegisterPlayer g n)
    (hd : ∀ g : Str, '"' ∉ g → s1.DrawNumber g = s2.DrawNumber g)
    (hm : ∀ (g p : Str) (k : Int), '"' ∉ g → '"' ∉ p → s1.MarkNumber g p k = s2.MarkNumber g p k)
    (hb : ∀ g p : Str, '"' ∉ g → '"' ∉ p → s1.CheckBingo g p = s2.CheckBingo g p) :
    handleRequest s1 "POST".toList path body = handleRequest s2 "POST".toList path body := by
  have q := fun key => (parseJsonString_result body key).1
  by_cases p1 : path = "/game/create".toList
  · subst p1
    rw [handleRequest_create, handleRequest_create]
    simp only [BingoStub.CreateGame, hc _ (game_name_quote_free body)]
  by_cases p2 : path = "/game/register".toList
  · subst p2
    rw [handleRequest_register, handleRequest_register]
    simp only [BingoStub.RegisterPlayer, hr _ _ (q _) (q _)]
  by_cases p3 : path = "/game/draw".toList
  · subst p3
    rw [handleRequest_draw, handleRequest_draw]
    simp only [BingoStub.DrawNumber, hd _ (q _)]
  by_cases p4 : path = "/game/mark".toList
  · subst p4
    rw [handleRequest_mark, handleRequest_mark]
    cases parseJsonInt body "number".toList with
    | error e => rfl
    | ok n => simp only [BingoStub.MarkNumber, hm _ _ n (q _) (q _)]
  by_cases p5 : path = "/game/bingo".toList
  · subst p5
    rw [handleRequest_bingo, handleRequest_bingo]
    simp only [BingoStub.CheckBingo, hb _ _ (q _) (q _)]
  have hun : ¬ (exactRoute "POST".toList path ∨ cardRoute "POST".toList path) := by
    rintro (h | h)
    · rcases h with h | ⟨_, h | h | h | h | h⟩
      · exact absurd h.1 (by decide)
      · exact p1 h
      · exact p2 h
      · exact p3 h
      · exact p4 h
      · exact p5 h
    · exact absurd h.1 (by decide)
  rw [handleRequest_unrouted s1 _ _ body hun, handleRequest_unrouted s2 _ _ body hun]

/-- C22. For every body and key the string `parseJsonString` returns holds no double quote and
is a contiguous part of the body; hence every game id, player id and name the dispatcher hands
to the backend from a request body is free of double quotes: what two backends do on an
argument that holds one makes no difference to the answer of any `POST`. -/
theorem parseJsonString_quote_free (body key : Str) :
    '"' ∉ parseJsonString body key ∧
    parseJsonString body key <:+: body ∧
    (∀ (s1 s2 : Backend) (path : Str),
      (∀ n : Str, '"' ∉ n → s1.CreateGame n = s2.CreateGame n) →
      (∀ g n : Str, '"' ∉ g → '"' ∉ n → s1.RegisterPlayer g n = s2.RegisterPlayer g n) →
      (∀ g : Str, '"' ∉ g → s1.DrawNumber g = s2.DrawNumber g) →
      (∀ (g p : Str) (k : Int), '"' ∉ g → '"' ∉ p →
        s1.MarkNumber g p k = s2.MarkNumber g p k) →
      (∀ g p : Str, '"' ∉ g → '"' ∉ p → s1.CheckBingo g p = s2.CheckBingo g p) →
      handleRequest s1 "POST".toList path body = handleRequest s2 "POST".toList path body) :=
  ⟨(parseJsonString_result body key).1, (parseJsonString_result body key).2,
    fun s1 s2 path hc hr hd hm hb => handleRequest_post_agree s1 s2 path body hc hr hd hm hb⟩

theorem parseJsonString_quote_free_witness :
    parseJsonString "\x7b\"game_id\":\"g-1\",\"player_name\":\"Al\"\x7d".toList "game_id".toList
      = "g-1".toList ∧
    '"' ∉ parseJsonString "\x7b\"game_id\":\"g-1\",\"player_name\":\"Al\"\x7d".toList
      "game_id".toList ∧
    handleRequest quoteShyBackend "POST".toList "/game/register".toList
        "\x7b\"game_id\":\"g-1\",\"player_name\":\"Al\"\x7d".toList
      = handleRequest acceptingBackend "POST".toList "/game/register".toList
        "\x7b\"game_id\":\"g-1\",\"player_name\":\"Al\"\x7d".toList :=
  ⟨by decide,
    (parseJsonString_quote_free "\x7b\"game_id\":\"g-1\",\"player_name\":\"Al\"\x7d".toList
      "game_id".toList).1,
    (parseJsonString_quote_free "\x7b\"game_id\":\"g-1\",\"player_name\":\"Al\"\x7d".toList
      "game_id".toList).2.2 quoteShyBackend acceptingBackend "/game/register".toList
      (fun n h => by simp [quoteShyBackend, acceptingBackend, h])
      (fun g n h1 h2 => by simp [quoteShyBackend, acceptingBackend, h1, h2])
      (fun g h => by simp [quoteShyBackend, acceptingBackend, h])
      (fun g p k h1 h2 => by simp [quoteShyBackend, acceptingBackend, h1, h2])
      (fun g p h1 h2 => by simp [quoteShyBackend, acceptingBackend, h1, h2])⟩

end Gateway
